import Mathlib

/-!
Verification of the recurring-schedule projection engine of the `monetra`
backend (`src/backend/recurring_projection.py` and the older
`src/backend/income_projection.py`).

Dates are modelled as proleptic-Gregorian triples `(year, month, day)` of
natural numbers, as Python's `datetime.date` does (years start at 1).
Python compares dates by their ordinal, which coincides with lexicographic
comparison of the triple; we take the lexicographic comparison as the
definition and relate it to a rata-die day count `Date.toRD` (the analogue
of `date.toordinal`) for `timedelta` arithmetic.
-/

namespace Monetra

/-- `calendar.isleap` from the Python standard library. -/
def isleap (y : Nat) : Bool :=
  y % 4 == 0 && (y % 100 != 0 || y % 400 == 0)

/-- `calendar.monthrange(y, m)[1]`: the number of days in month `m` of
year `y` (months are 1-based; other inputs are junk values). -/
def monthLength (y m : Nat) : Nat :=
  if m = 2 then (if isleap y then 29 else 28)
  else if m = 4 ∨ m = 6 ∨ m = 9 ∨ m = 11 then 30
  else 31

/-- A calendar date, as Python's `datetime.date`. -/
structure Date where
  year : Nat
  month : Nat
  day : Nat
deriving DecidableEq, Repr

/-- The constructible dates of `datetime.date` (we do not impose Python's
9999 upper bound on the year, which no computation here reaches). -/
def Date.Valid (d : Date) : Prop :=
  1 ≤ d.year ∧ 1 ≤ d.month ∧ d.month ≤ 12 ∧ 1 ≤ d.day ∧ d.day ≤ monthLength d.year d.month

instance (d : Date) : Decidable d.Valid := by
  unfold Date.Valid; infer_instance

/-- Python date comparison (ordinal order = lexicographic on the triple). -/
def Date.leb (a b : Date) : Bool :=
  a.year < b.year ||
    (a.year == b.year &&
      (a.month < b.month || (a.month == b.month && a.day ≤ b.day)))

/-- Strict Python date comparison. -/
def Date.ltb (a b : Date) : Bool :=
  a.year < b.year ||
    (a.year == b.year &&
      (a.month < b.month || (a.month == b.month && a.day < b.day)))

instance : LE Date := ⟨fun a b => Date.leb a b = true⟩

instance : LT Date := ⟨fun a b => Date.ltb a b = true⟩

instance (a b : Date) : Decidable (a ≤ b) := by
  change Decidable (Date.leb a b = true); infer_instance

instance (a b : Date) : Decidable (a < b) := by
  change Decidable (Date.ltb a b = true); infer_instance

/-- Days in years `1, …, y-1`: the closed form used by `date.toordinal`. -/
def daysInYearsBefore (y : Nat) : Nat :=
  365 * (y - 1) + (y - 1) / 4 - (y - 1) / 100 + (y - 1) / 400

/-- Days in months `1, …, m-1` of year `y`. -/
def daysBeforeMonth (y : Nat) : Nat → Nat
  | 0 => 0
  | 1 => 0
  | m + 2 => daysBeforeMonth y (m + 1) + monthLength y (m + 1)

/-- Rata-die day number: `Date.toRD ⟨1,1,1⟩ = 1`, matching `date.toordinal`. -/
def Date.toRD (d : Date) : Nat :=
  daysInYearsBefore d.year + daysBeforeMonth d.year d.month + d.day

/-- The calendar successor of a date. -/
def Date.nextDay (d : Date) : Date :=
  if d.day < monthLength d.year d.month then ⟨d.year, d.month, d.day + 1⟩
  else if d.month < 12 then ⟨d.year, d.month + 1, 1⟩
  else ⟨d.year + 1, 1, 1⟩

/-- `d + timedelta(days = n)` for `n ≥ 0` (the only direction this code uses). -/
def Date.addDays (d : Date) : Nat → Date
  | 0 => d
  | n + 1 => (d.addDays n).nextDay

/-- `(a - b).days` for dates with `b ≤ a` (the only situation this code
subtracts dates in). -/
def Date.subDays (a b : Date) : Nat :=
  a.toRD - b.toRD

/-- `_add_months(start_date, months, anchor_day)` from
`recurring_projection.py` (and identically `income_projection.py`), for the
nonnegative month offsets the engine uses. -/
def _add_months (start_date : Date) (months : Nat) (anchor_day : Nat) : Date :=
  let total_month := start_date.month - 1 + months
  let year := start_date.year + total_month / 12
  let month := total_month % 12 + 1
  let last_day := monthLength year month
  let day := min anchor_day last_day
  ⟨year, month, day⟩

/-!
Definitions shared verbatim by `recurring_projection.py` and
`income_projection.py` (each Python module contains an identical copy;
we define them once).
-/

def WEEKLY_DAYS : Nat := 7

def BIWEEKLY_DAYS : Nat := 14

/-- The spec's failure taxonomy for the `ValueError`s both modules raise. -/
inductive ProjError where
  | InvalidRange
  | InvalidAmount
  | InvalidFrequency
  | InvalidKind
deriving DecidableEq, Repr

/-- Leading-whitespace stripping on a character list. -/
def stripLeading : List Char → List Char
  | [] => []
  | c :: cs => if c.isWhitespace then stripLeading cs else c :: cs

/-- Python's `str.strip()` (ASCII whitespace, which is all the engine's
callers use), as a character-list operation: strip leading, then
trailing. -/
def pyStrip (l : List Char) : List Char :=
  (stripLeading ((stripLeading l).reverse)).reverse

/-- `value.strip().lower()` / `ch.isalnum()` are modelled per character
with the core `Char` operations, which agree with Python on ASCII.  (The
string methods of `String` itself are not used because they do not reduce
in the kernel.) -/
def _normalize_frequency (value : String) : String :=
  ⟨((pyStrip value.data).map Char.toLower).filter Char.isAlphanum⟩

def _coerce_amount (amount : Rat) : Rat := amount

def _first_occurrence_on_or_after (start_date minimum_date : Date)
    (interval_days : Nat) : Date :=
  if minimum_date ≤ start_date then start_date
  else
    let days_between := minimum_date.subDays start_date
    let intervals := (days_between + interval_days - 1) / interval_days
    start_date.addDays (interval_days * intervals)

/-- The Python int `(min.year - start.year) * 12 + (min.month - start.month)`. -/
def monthsBetweenZ (a b : Date) : Int :=
  ((b.year : Int) - a.year) * 12 + ((b.month : Int) - a.month)

/-- `_first_monthly_on_or_after`.  `months_between` is nonnegative whenever
`start_date < minimum_date` (see `monthsBetweenZ_nonneg`), so `Int.toNat` is
exact on the reachable domain. -/
def _first_monthly_on_or_after (start_date minimum_date : Date) : Date × Nat :=
  if minimum_date ≤ start_date then (start_date, 0)
  else
    let months_between := (monthsBetweenZ start_date minimum_date).toNat
    let candidate := _add_months start_date months_between start_date.day
    if candidate < minimum_date then
      (_add_months start_date (months_between + 1) start_date.day, months_between + 1)
    else (candidate, months_between)

/-- The spec's OccurrenceGenerator (§4.2): the candidate dates the
projection loop steps through, with no knowledge of exclusions.  Mirrors
the stepping of `_projection_loop` / `_income_loop` exactly. -/
def _occurrence_dates (start range_end : Date) (is_calendar : Bool)
    (month_increment interval anchor : Nat) : Nat → Date → Nat → List Date
  | 0, _, _ => []
  | fuel + 1, current, off =>
    if current ≤ range_end then
      current ::
        (if is_calendar then
          _occurrence_dates start range_end is_calendar month_increment interval
            anchor fuel (_add_months start (off + month_increment) anchor)
            (off + month_increment)
        else
          _occurrence_dates start range_end is_calendar month_increment interval
            anchor fuel (current.addDays interval) off)
    else []

/-! ## `src/backend/recurring_projection.py` -/

namespace Recurring

def SUPPORTED_FREQUENCIES : List String := ["weekly", "biweekly", "monthly", "yearly"]

def SUPPORTED_KINDS : List String := ["income", "expense", "investment"]

/-- `KIND_TO_PROJECTION[kind]`; only looked up with validated kinds, so the
final (unreachable) branch carries a junk value. -/
def KIND_TO_PROJECTION (kind : String) : String × Bool :=
  if kind == "income" then ("income", false)
  else if kind == "expense" then ("expense", false)
  else if kind == "investment" then ("expense", true)
  else ("", false)

/-- `KIND_TO_ACTUAL_TYPES[kind]`; only looked up with validated kinds. -/
def KIND_TO_ACTUAL_TYPES (kind : String) : List String :=
  if kind == "income" then ["income"]
  else if kind == "expense" then ["expense"]
  else if kind == "investment" then ["investment"]
  else []

/-- Python `Decimal` amounts are modelled as rationals. -/
structure RecurringSchedule where
  amount : Rat
  start_date : Date
  account_id : Int
  currency : Option String
  frequency : String
  kind : String
  category_id : Option Int
  notes : Option String
deriving DecidableEq, Repr

structure ActualTransaction where
  date : Date
  account_id : Int
  type : String
deriving DecidableEq, Repr

structure ProjectedEntry where
  date : Date
  amount : Rat
  account_id : Int
  transaction_type : String
  is_investment : Bool
  source : String
  notes : Option String
deriving DecidableEq, Repr

def _validate_frequency (frequency : String) : Except ProjError String :=
  let normalized := _normalize_frequency frequency
  let normalized := if normalized == "byweekly" then "biweekly" else normalized
  if SUPPORTED_FREQUENCIES.contains normalized then Except.ok normalized
  else Except.error ProjError.InvalidFrequency

/-- `value.strip().lower()`, modelled like `_normalize_frequency`. -/
def _normalize_kind (value : String) : String :=
  ⟨(pyStrip value.data).map Char.toLower⟩

def _validate_kind (kind : String) : Except ProjError String :=
  let normalized := _normalize_kind kind
  if SUPPORTED_KINDS.contains normalized then Except.ok normalized
  else Except.error ProjError.InvalidKind

/-- The nested dict `account_id → normalized type → set of dates` built by
`_index_existing_transactions`, modelled by its membership function. -/
def _index_existing_transactions (existing_transactions : List ActualTransaction) :
    Int → String → Date → Bool :=
  fun account_id normalized_type d =>
    existing_transactions.any fun txn =>
      txn.account_id == account_id && _normalize_kind txn.type == normalized_type &&
        txn.date == d

/-- The exclusion set of `_excluded_dates_for_schedule`, as its membership
function. -/
def _excluded_dates_for_schedule (schedule : RecurringSchedule)
    (normalized_kind : String) (existing_index : Int → String → Date → Bool) :
    Date → Bool :=
  fun d => (KIND_TO_ACTUAL_TYPES normalized_kind).any fun actual_type =>
    existing_index schedule.account_id actual_type d

/-- `_first_yearly_on_or_after`.  `years_between = min.year - start.year` is
nonnegative whenever `start_date < minimum_date`. -/
def _first_yearly_on_or_after (start_date minimum_date : Date) : Date × Nat :=
  if minimum_date ≤ start_date then (start_date, 0)
  else
    let years_between := ((minimum_date.year : Int) - start_date.year).toNat
    let months_between := years_between * 12
    let candidate := _add_months start_date months_between start_date.day
    if candidate < minimum_date then
      (_add_months start_date (months_between + 12) start_date.day, months_between + 12)
    else (candidate, months_between)

/-- The `while current_date <= range_end` loop of `_project_schedule`.  The
Python loop is unbounded; here it carries a fuel parameter, and
`_projection_loop_fuel_irrelevant` (claim C9) shows that any fuel of at
least `range_end.toRD + 1 - current_date.toRD` — the amount the callers
supply — yields the fixed point of the unbounded loop. -/
def _projection_loop (schedule : RecurringSchedule) (range_end : Date)
    (excluded_dates : Date → Bool) (transaction_type : String)
    (is_investment : Bool) (is_calendar : Bool) (month_increment interval : Nat) :
    Nat → Date → Nat → List ProjectedEntry
  | 0, _, _ => []
  | fuel + 1, current_date, month_offset =>
    if current_date ≤ range_end then
      (if excluded_dates current_date then [] else
        [ProjectedEntry.mk current_date (_coerce_amount schedule.amount)
          schedule.account_id transaction_type is_investment "projected"
          schedule.notes]) ++
      (if is_calendar then
        _projection_loop schedule range_end excluded_dates transaction_type
          is_investment is_calendar month_increment interval fuel
          (_add_months schedule.start_date (month_offset + month_increment)
            schedule.start_date.day)
          (month_offset + month_increment)
      else
        _projection_loop schedule range_end excluded_dates transaction_type
          is_investment is_calendar month_increment interval fuel
          (current_date.addDays interval) month_offset)
    else []

/-- Lines 108–149 of `_project_schedule` (everything after validation):
resolve the first in-window occurrence and drive the projection loop. -/
def _generate (schedule : RecurringSchedule) (range_start range_end : Date)
    (excluded_dates : Date → Bool)
    (normalized_frequency normalized_kind : String) : List ProjectedEntry :=
  let tp := KIND_TO_PROJECTION normalized_kind
  if normalized_frequency == "monthly" || normalized_frequency == "yearly" then
    let fm :=
      if normalized_frequency == "monthly" then
        _first_monthly_on_or_after schedule.start_date range_start
      else
        _first_yearly_on_or_after schedule.start_date range_start
    let month_increment := if normalized_frequency == "monthly" then 1 else 12
    _projection_loop schedule range_end excluded_dates tp.1 tp.2
      true month_increment 0 (range_end.toRD + 1 - fm.1.toRD) fm.1 fm.2
  else
    let interval :=
      if normalized_frequency == "weekly" then WEEKLY_DAYS else BIWEEKLY_DAYS
    let first_date :=
      _first_occurrence_on_or_after schedule.start_date range_start interval
    _projection_loop schedule range_end excluded_dates tp.1 tp.2
      false 0 interval (range_end.toRD + 1 - first_date.toRD) first_date 0

def _project_schedule (schedule : RecurringSchedule) (range_start range_end : Date)
    (existing_index : Int → String → Date → Bool) (check_range : Bool) :
    Except ProjError (List ProjectedEntry) :=
  if check_range = true ∧ range_end < range_start then
    Except.error ProjError.InvalidRange
  else if schedule.amount ≤ 0 then Except.error ProjError.InvalidAmount
  else
    match _validate_frequency schedule.frequency with
    | Except.error e => Except.error e
    | Except.ok normalized_frequency =>
      match _validate_kind schedule.kind with
      | Except.error e => Except.error e
      | Except.ok normalized_kind =>
        let excluded_dates :=
          _excluded_dates_for_schedule schedule normalized_kind existing_index
        Except.ok (_generate schedule range_start range_end excluded_dates
          normalized_frequency normalized_kind)

def project_recurring_schedule (schedule : RecurringSchedule)
    (range_start range_end : Date)
    (existing_transactions : List ActualTransaction) :
    Except ProjError (List ProjectedEntry) :=
  let existing_index := _index_existing_transactions existing_transactions
  _project_schedule schedule range_start range_end existing_index true

/-- The `for schedule in schedules: projections.extend(...)` loop of
`project_recurring_schedules`; a raise inside the loop aborts it. -/
def _project_schedules_loop (range_start range_end : Date)
    (existing_index : Int → String → Date → Bool) :
    List RecurringSchedule → Except ProjError (List ProjectedEntry)
  | [] => Except.ok []
  | s :: rest =>
    match _project_schedule s range_start range_end existing_index false with
    | Except.error e => Except.error e
    | Except.ok l =>
      match _project_schedules_loop range_start range_end existing_index rest with
      | Except.error e => Except.error e
      | Except.ok ls => Except.ok (l ++ ls)

def project_recurring_schedules (schedules : List RecurringSchedule)
    (range_start range_end : Date)
    (existing_transactions : List ActualTransaction) :
    Except ProjError (List ProjectedEntry) :=
  if range_end < range_start then Except.error ProjError.InvalidRange
  else
    let existing_index := _index_existing_transactions existing_transactions
    _project_schedules_loop range_start range_end existing_index schedules

/-- The candidate occurrence dates of a `_project_schedule` call (the
generator of §4.2 driven with the same first occurrence and fuel as
`_generate`). -/
def _generated_dates (schedule : RecurringSchedule) (range_start range_end : Date)
    (normalized_frequency : String) : List Date :=
  if normalized_frequency == "monthly" || normalized_frequency == "yearly" then
    let fm :=
      if normalized_frequency == "monthly" then
        _first_monthly_on_or_after schedule.start_date range_start
      else
        _first_yearly_on_or_after schedule.start_date range_start
    let month_increment := if normalized_frequency == "monthly" then 1 else 12
    _occurrence_dates schedule.start_date range_end true month_increment 0
      schedule.start_date.day (range_end.toRD + 1 - fm.1.toRD) fm.1 fm.2
  else
    let interval :=
      if normalized_frequency == "weekly" then WEEKLY_DAYS else BIWEEKLY_DAYS
    let first_date :=
      _first_occurrence_on_or_after schedule.start_date range_start interval
    _occurrence_dates schedule.start_date range_end false 0 interval
      schedule.start_date.day (range_end.toRD + 1 - first_date.toRD) first_date 0

/-- Reference semantics from the spec's words (§4.4): "semantically
equivalent to calling the single-schedule operation once per schedule and
concatenating"; a raise in some single call aborts the sequence at the
first raising schedule. -/
def projectEachThenConcat (schedules : List RecurringSchedule)
    (range_start range_end : Date)
    (existing_transactions : List ActualTransaction) :
    Except ProjError (List ProjectedEntry) :=
  match schedules with
  | [] => Except.ok []
  | s :: rest =>
    match project_recurring_schedule s range_start range_end
        existing_transactions with
    | Except.error e => Except.error e
    | Except.ok l =>
      match projectEachThenConcat rest range_start range_end
          existing_transactions with
      | Except.error e => Except.error e
      | Except.ok ls => Except.ok (l ++ ls)

end Recurring

/-! ## `src/backend/income_projection.py` (the older standalone engine) -/

namespace Income

def SUPPORTED_FREQUENCIES : List String := ["weekly", "biweekly", "monthly"]

structure PaySchedule where
  amount : Rat
  start_date : Date
  account_id : Int
  frequency : String
deriving DecidableEq, Repr

structure IncomeTransaction where
  date : Date
  amount : Rat
  account_id : Int
deriving DecidableEq, Repr

structure ProjectedIncome where
  date : Date
  amount : Rat
  account_id : Int
  source : String
deriving DecidableEq, Repr

def _validate_frequency (frequency : String) : Except ProjError String :=
  let normalized := _normalize_frequency frequency
  let normalized := if normalized == "byweekly" then "biweekly" else normalized
  if SUPPORTED_FREQUENCIES.contains normalized then Except.ok normalized
  else Except.error ProjError.InvalidFrequency

/-- The set `{txn.date for txn in existing_income}`, as its membership
function. -/
def _collect_existing_dates (existing_income : List IncomeTransaction) :
    Date → Bool :=
  fun d => existing_income.any fun txn => txn.date == d

/-- The `while current_date <= range_end` loop of `project_income`, with a
fuel parameter exactly as in `Recurring._projection_loop`. -/
def _income_loop (schedule : PaySchedule) (range_end : Date)
    (excluded_dates : Date → Bool) (is_monthly : Bool) (interval : Nat) :
    Nat → Date → Nat → List ProjectedIncome
  | 0, _, _ => []
  | fuel + 1, current_date, month_offset =>
    if current_date ≤ range_end then
      (if excluded_dates current_date then [] else
        [ProjectedIncome.mk current_date (_coerce_amount schedule.amount)
          schedule.account_id "projected"]) ++
      (if is_monthly then
        _income_loop schedule range_end excluded_dates is_monthly interval fuel
          (_add_months schedule.start_date (month_offset + 1)
            schedule.start_date.day)
          (month_offset + 1)
      else
        _income_loop schedule range_end excluded_dates is_monthly interval fuel
          (current_date.addDays interval) month_offset)
    else []

/-- Lines 49–79 of `project_income` (everything after validation). -/
def _generate (schedule : PaySchedule) (range_start range_end : Date)
    (excluded_dates : Date → Bool) (normalized_frequency : String) :
    List ProjectedIncome :=
  if normalized_frequency == "monthly" then
    let fm := _first_monthly_on_or_after schedule.start_date range_start
    _income_loop schedule range_end excluded_dates true 0
      (range_end.toRD + 1 - fm.1.toRD) fm.1 fm.2
  else
    let interval :=
      if normalized_frequency == "weekly" then WEEKLY_DAYS else BIWEEKLY_DAYS
    let first_date :=
      _first_occurrence_on_or_after schedule.start_date range_start interval
    _income_loop schedule range_end excluded_dates false interval
      (range_end.toRD + 1 - first_date.toRD) first_date 0

def project_income (schedule : PaySchedule) (range_start range_end : Date)
    (existing_income : List IncomeTransaction) :
    Except ProjError (List ProjectedIncome) :=
  if range_end < range_start then Except.error ProjError.InvalidRange
  else if schedule.amount ≤ 0 then Except.error ProjError.InvalidAmount
  else
    match _validate_frequency schedule.frequency with
    | Except.error e => Except.error e
    | Except.ok normalized_frequency =>
      let excluded_dates := _collect_existing_dates existing_income
      Except.ok (Income._generate schedule range_start range_end excluded_dates
        normalized_frequency)

/-- The `RecurringSchedule` corresponding to a legacy `PaySchedule`
(kind `income`, no pass-through fields). -/
def PaySchedule.toRecurringSchedule (s : PaySchedule) : Recurring.RecurringSchedule :=
  ⟨s.amount, s.start_date, s.account_id, none, s.frequency, "income", none, none⟩

/-- An income transaction viewed as an `ActualTransaction` of type
`"income"`. -/
def IncomeTransaction.toActualTransaction (t : IncomeTransaction) :
    Recurring.ActualTransaction :=
  ⟨t.date, t.account_id, "income"⟩

end Income


/-! ## Theorems -/

theorem Date.le_def (a b : Date) :
    a ≤ b ↔ (a.year < b.year ∨
      (a.year = b.year ∧ (a.month < b.month ∨ (a.month = b.month ∧ a.day ≤ b.day)))) := by
  change Date.leb a b = true ↔ _
  simp [Date.leb]

theorem Date.lt_def (a b : Date) :
    a < b ↔ (a.year < b.year ∨
      (a.year = b.year ∧ (a.month < b.month ∨ (a.month = b.month ∧ a.day < b.day)))) := by
  change Date.ltb a b = true ↔ _
  simp [Date.ltb]

theorem Date.not_le {a b : Date} : ¬ a ≤ b ↔ b < a := by
  rw [Date.le_def, Date.lt_def]
  constructor
  · intro h
    rcases Nat.lt_trichotomy a.year b.year with hy | hy | hy
    · exact absurd (Or.inl hy) h
    · rcases Nat.lt_trichotomy a.month b.month with hm | hm | hm
      · exact absurd (Or.inr ⟨hy, Or.inl hm⟩) h
      · rcases Nat.lt_or_ge b.day a.day with hd | hd
        · exact Or.inr ⟨hy.symm, Or.inr ⟨hm.symm, hd⟩⟩
        · exact absurd (Or.inr ⟨hy, Or.inr ⟨hm, hd⟩⟩) h
      · exact Or.inr ⟨hy.symm, Or.inl hm⟩
    · exact Or.inl hy
  · intro h h'
    omega

theorem monthLength_pos (y m : Nat) : 28 ≤ monthLength y m := by
  unfold monthLength
  split
  · split <;> omega
  · split <;> omega

theorem Date.valid_mk (y m dd : Nat) :
    (Date.mk y m dd).Valid ↔
      (1 ≤ y ∧ 1 ≤ m ∧ m ≤ 12 ∧ 1 ≤ dd ∧ dd ≤ monthLength y m) :=
  Iff.rfl

theorem nextDay_valid {d : Date} (h : d.Valid) : d.nextDay.Valid := by
  obtain ⟨h1, h2, h3, h4, h5⟩ := h
  unfold Date.nextDay
  split
  · rw [Date.valid_mk]
    omega
  · split
    · rw [Date.valid_mk]
      have := monthLength_pos d.year (d.month + 1)
      omega
    · rw [Date.valid_mk]
      have := monthLength_pos (d.year + 1) 1
      omega

theorem daysBeforeMonth_succ (y m : Nat) (h : 1 ≤ m) :
    daysBeforeMonth y (m + 1) = daysBeforeMonth y m + monthLength y m := by
  match m, h with
  | m + 1, _ => rfl

/-- Total length of year `y` as the sum of its month lengths. -/
theorem daysBeforeMonth_13 (y : Nat) :
    daysBeforeMonth y 13 = if isleap y then 366 else 365 := by
  by_cases h : isleap y = true <;>
    simp [daysBeforeMonth, monthLength, h]

theorem daysInYearsBefore_succ (y : Nat) (hy : 1 ≤ y) :
    daysInYearsBefore (y + 1) =
      daysInYearsBefore y + (if isleap y then 366 else 365) := by
  obtain ⟨k, rfl⟩ : ∃ k, y = k + 1 := ⟨y - 1, by omega⟩
  unfold daysInYearsBefore isleap
  simp only [Nat.add_sub_cancel]
  rw [Nat.succ_div, Nat.succ_div, Nat.succ_div]
  have h4 : (4 ∣ k + 1) ↔ (k + 1) % 4 = 0 := Nat.dvd_iff_mod_eq_zero
  have h100 : (100 ∣ k + 1) ↔ (k + 1) % 100 = 0 := Nat.dvd_iff_mod_eq_zero
  have h400 : (400 ∣ k + 1) ↔ (k + 1) % 400 = 0 := Nat.dvd_iff_mod_eq_zero
  have hdb : k / 100 ≤ k / 4 := Nat.div_le_div_left (by omega) (by omega)
  by_cases c4 : (k + 1) % 4 = 0 <;> by_cases c100 : (k + 1) % 100 = 0 <;>
    by_cases c400 : (k + 1) % 400 = 0 <;>
    simp [h4, h100, h400, c4, c100, c400] <;> omega

theorem toRD_nextDay {d : Date} (h : d.Valid) : d.nextDay.toRD = d.toRD + 1 := by
  obtain ⟨h1, h2, h3, h4, h5⟩ := h
  unfold Date.nextDay
  split
  · simp only [Date.toRD]
    omega
  · split
    · simp only [Date.toRD]
      rw [daysBeforeMonth_succ d.year d.month h2]
      omega
    · have hm : d.month = 12 := by omega
      have hd : d.day = monthLength d.year d.month := by omega
      rw [hm] at hd
      have h13 : daysBeforeMonth d.year 13 =
          daysBeforeMonth d.year 12 + monthLength d.year 12 :=
        daysBeforeMonth_succ d.year 12 (by omega)
      have h13v := daysBeforeMonth_13 d.year
      have hz : daysBeforeMonth (d.year + 1) 1 = 0 := rfl
      simp only [Date.toRD]
      rw [daysInYearsBefore_succ d.year h1, hm, hd, hz]
      omega

theorem addDays_valid {d : Date} (h : d.Valid) (n : Nat) : (d.addDays n).Valid := by
  induction n with
  | zero => exact h
  | succ n ih => exact nextDay_valid ih

theorem toRD_addDays {d : Date} (h : d.Valid) (n : Nat) :
    (d.addDays n).toRD = d.toRD + n := by
  induction n with
  | zero => rfl
  | succ n ih =>
    have := toRD_nextDay (addDays_valid h n)
    simp only [Date.addDays]
    omega

theorem daysBeforeMonth_mono (y : Nat) {m1 m2 : Nat} (h1 : 1 ≤ m1) (h : m1 < m2) :
    daysBeforeMonth y m1 + monthLength y m1 ≤ daysBeforeMonth y m2 := by
  induction m2 with
  | zero => omega
  | succ m ih =>
    rcases Nat.lt_or_ge m1 m with hlt | hge
    · have hrec := ih hlt
      have hsucc := daysBeforeMonth_succ y m (by omega)
      omega
    · have heq : m1 = m := by omega
      subst heq
      rw [daysBeforeMonth_succ y m1 h1]

theorem daysInYearsBefore_mono {y1 y2 : Nat} (h : y1 ≤ y2) :
    daysInYearsBefore y1 ≤ daysInYearsBefore y2 := by
  induction y2 with
  | zero =>
    have : y1 = 0 := by omega
    subst this
    exact Nat.le_refl _
  | succ y ih =>
    rcases Nat.lt_or_ge y1 (y + 1) with hlt | hge
    · have h1 := ih (by omega)
      rcases Nat.eq_zero_or_pos y with hz | hp
      · subst hz
        have : y1 = 0 := by omega
        subst this
        exact Nat.le_refl _
      · have := daysInYearsBefore_succ y hp
        split at this <;> omega
    · have : y1 = y + 1 := by omega
      subst this
      exact Nat.le_refl _

/-- `daysInYearsBefore (y+1)` in terms of `daysBeforeMonth y 13`. -/
theorem daysInYearsBefore_succ_eq (y : Nat) (hy : 1 ≤ y) :
    daysInYearsBefore (y + 1) = daysInYearsBefore y + daysBeforeMonth y 13 := by
  rw [daysInYearsBefore_succ y hy, daysBeforeMonth_13]

/-- Rata-die numbers respect the lexicographic date order on valid dates. -/
theorem toRD_lt_of_lt {a b : Date} (ha : a.Valid) (hb : b.Valid) (h : a < b) :
    a.toRD < b.toRD := by
  obtain ⟨ha1, ha2, ha3, ha4, ha5⟩ := ha
  obtain ⟨hb1, hb2, hb3, hb4, hb5⟩ := hb
  rw [Date.lt_def] at h
  unfold Date.toRD
  rcases h with hy | ⟨hy, hm | ⟨hm, hd⟩⟩
  · have t2 := daysBeforeMonth_mono a.year ha2 (show a.month < 13 by omega)
    have t3 := daysInYearsBefore_succ_eq a.year ha1
    have t4 := daysInYearsBefore_mono (show a.year + 1 ≤ b.year by omega)
    have t5 : 0 ≤ daysBeforeMonth b.year b.month := Nat.zero_le _
    omega
  · rw [hy] at ha5 ⊢
    have t2 := daysBeforeMonth_mono b.year ha2 hm
    omega
  · rw [hy, hm]
    omega

theorem Date.le_iff_lt_or_eq (a b : Date) : a ≤ b ↔ (a < b ∨ a = b) := by
  cases a with
  | mk y1 m1 d1 =>
    cases b with
    | mk y2 m2 d2 =>
      rw [Date.le_def, Date.lt_def]
      simp only [Date.mk.injEq]
      omega

theorem toRD_le_of_le {a b : Date} (ha : a.Valid) (hb : b.Valid) (h : a ≤ b) :
    a.toRD ≤ b.toRD := by
  rcases (Date.le_iff_lt_or_eq a b).mp h with hlt | heq
  · exact Nat.le_of_lt (toRD_lt_of_lt ha hb hlt)
  · rw [heq]

theorem le_of_toRD_le {a b : Date} (ha : a.Valid) (hb : b.Valid)
    (h : a.toRD ≤ b.toRD) : a ≤ b := by
  by_contra hc
  have hba := Date.not_le.mp hc
  have := toRD_lt_of_lt hb ha hba
  omega

theorem Date.not_lt {a b : Date} : ¬ a < b ↔ b ≤ a := by
  cases a with
  | mk y1 m1 d1 =>
    cases b with
    | mk y2 m2 d2 =>
      rw [Date.le_def, Date.lt_def]
      omega

theorem lt_of_toRD_lt {a b : Date} (ha : a.Valid) (hb : b.Valid)
    (h : a.toRD < b.toRD) : a < b := by
  by_contra hc
  have hba : b ≤ a := Date.not_lt.mp hc
  have := toRD_le_of_le hb ha hba
  omega

theorem _add_months_year (s : Date) (m a : Nat) :
    (_add_months s m a).year = s.year + (s.month - 1 + m) / 12 := rfl

theorem _add_months_month (s : Date) (m a : Nat) :
    (_add_months s m a).month = (s.month - 1 + m) % 12 + 1 := rfl

theorem _add_months_day (s : Date) (m a : Nat) :
    (_add_months s m a).day =
      min a (monthLength (_add_months s m a).year (_add_months s m a).month) := rfl

/-- The linear month index `12·year + month` of `_add_months`. -/
theorem _add_months_index (s : Date) (m a : Nat) (hs : 1 ≤ s.month) :
    12 * (_add_months s m a).year + (_add_months s m a).month =
      12 * s.year + s.month + m := by
  rw [_add_months_year, _add_months_month]
  omega

theorem _add_months_month_bounds (s : Date) (m a : Nat) :
    1 ≤ (_add_months s m a).month ∧ (_add_months s m a).month ≤ 12 := by
  rw [_add_months_month]
  omega

theorem _add_months_valid {s : Date} (hy : 1 ≤ s.year) {a : Nat} (ha : 1 ≤ a)
    (m : Nat) : (_add_months s m a).Valid := by
  refine ⟨?_, ?_, ?_, ?_, ?_⟩
  · rw [_add_months_year]; omega
  · exact (_add_months_month_bounds s m a).1
  · exact (_add_months_month_bounds s m a).2
  · rw [_add_months_day]
    have := monthLength_pos (_add_months s m a).year (_add_months s m a).month
    omega
  · rw [_add_months_day]
    exact Nat.min_le_right _ _

/-- A date whose `12·year + month` index is strictly smaller is strictly
earlier, whatever the days are. -/
theorem Date.lt_of_index_lt {a b : Date}
    (h : 12 * a.year + a.month < 12 * b.year + b.month)
    (hb : b.month ≤ 12) : a < b := by
  rw [Date.lt_def]
  omega

theorem _add_months_strictMono {s : Date} (hs : 1 ≤ s.month) (a : Nat)
    {m1 m2 : Nat} (h : m1 < m2) :
    _add_months s m1 a < _add_months s m2 a := by
  have h1 := _add_months_index s m1 a hs
  have h2 := _add_months_index s m2 a hs
  have hb1 := _add_months_month_bounds s m1 a
  have hb2 := _add_months_month_bounds s m2 a
  exact Date.lt_of_index_lt (by omega) hb2.2

/-- Adding zero months with the date's own day as anchor is the identity. -/
theorem _add_months_zero {s : Date} (hv : s.Valid) :
    _add_months s 0 s.day = s := by
  obtain ⟨h1, h2, h3, h4, h5⟩ := hv
  cases s with
  | mk y m d =>
    simp only [_add_months]
    rw [Date.mk.injEq]
    simp only at h1 h2 h3 h4 h5
    refine ⟨by omega, by omega, ?_⟩
    have hy : y + (m - 1 + 0) / 12 = y := by omega
    have hm : (m - 1 + 0) % 12 + 1 = m := by omega
    rw [hy, hm]
    omega

theorem Date.le_refl (a : Date) : a ≤ a := by
  rw [Date.le_def]
  omega

theorem Date.le_trans {a b c : Date} (h1 : a ≤ b) (h2 : b ≤ c) : a ≤ c := by
  rw [Date.le_def] at h1 h2 ⊢
  omega

theorem Date.le_of_lt {a b : Date} (h : a < b) : a ≤ b := by
  rw [Date.lt_def] at h
  rw [Date.le_def]
  omega

theorem addDays_add (d : Date) (a b : Nat) :
    d.addDays (a + b) = (d.addDays a).addDays b := by
  induction b with
  | zero => rfl
  | succ b ih =>
    show (d.addDays (a + b)).nextDay = ((d.addDays a).addDays b).nextDay
    rw [ih]

/-- In the `start_date < minimum_date` branch, the Python expression
`(min.year - start.year) * 12 + (min.month - start.month)` is nonnegative
and `Int.toNat` recovers it exactly. -/
theorem monthsBetweenZ_toNat_spec {s m : Date} (h : s < m)
    (hsm : s.month ≤ 12) (hmm : 1 ≤ m.month) :
    12 * s.year + s.month + (monthsBetweenZ s m).toNat = 12 * m.year + m.month := by
  rw [Date.lt_def] at h
  unfold monthsBetweenZ
  omega

theorem monthsBetweenZ_nonneg {s m : Date} (h : s < m)
    (hsm : s.month ≤ 12) (hmm : 1 ≤ m.month) : 0 ≤ monthsBetweenZ s m := by
  rw [Date.lt_def] at h
  unfold monthsBetweenZ
  omega

theorem _first_occurrence_on_or_after_valid {s : Date} (m : Date)
    (hs : s.Valid) (i : Nat) : (_first_occurrence_on_or_after s m i).Valid := by
  unfold _first_occurrence_on_or_after
  split
  · exact hs
  · exact addDays_valid hs _

/-- The first interval occurrence is a whole number of intervals after
`start_date`. -/
theorem _first_occurrence_on_or_after_phase (s m : Date) (i : Nat) :
    ∃ k, _first_occurrence_on_or_after s m i = s.addDays (i * k) := by
  unfold _first_occurrence_on_or_after
  split
  · exact ⟨0, rfl⟩
  · exact ⟨_, rfl⟩

/-- The first interval occurrence is on or after `minimum_date`. -/
theorem _first_occurrence_on_or_after_ge {s m : Date} (hs : s.Valid)
    (hm : m.Valid) {i : Nat} (hi : 0 < i) :
    m ≤ _first_occurrence_on_or_after s m i := by
  by_cases hms : m ≤ s
  · unfold _first_occurrence_on_or_after
    rw [if_pos hms]
    exact hms
  · have hsm : s < m := Date.not_le.mp hms
    have hrd : s.toRD < m.toRD := toRD_lt_of_lt hs hm hsm
    unfold _first_occurrence_on_or_after
    rw [if_neg hms]
    simp only [Date.subDays]
    have hdm := Nat.div_add_mod (m.toRD - s.toRD + i - 1) i
    have hlt : (m.toRD - s.toRD + i - 1) % i < i := Nat.mod_lt _ hi
    apply le_of_toRD_le hm (addDays_valid hs _)
    rw [toRD_addDays hs]
    omega

/-- Characterization of `_first_monthly_on_or_after`: its result is the
day-clamped candidate at its offset, lies on or after `minimum_date`, and
every smaller offset's clamped candidate falls strictly before
`minimum_date`. -/
theorem _first_monthly_on_or_after_spec {s m : Date} (hs : s.Valid)
    (hm : m.Valid) :
    (_first_monthly_on_or_after s m).1 =
        _add_months s (_first_monthly_on_or_after s m).2 s.day ∧
      m ≤ (_first_monthly_on_or_after s m).1 ∧
      ∀ j < (_first_monthly_on_or_after s m).2, _add_months s j s.day < m := by
  by_cases hms : m ≤ s
  · unfold _first_monthly_on_or_after
    rw [if_pos hms]
    refine ⟨(_add_months_zero hs).symm, hms, ?_⟩
    intro j hj
    exact absurd hj (Nat.not_lt_zero j)
  · have hsm : s < m := Date.not_le.mp hms
    have hmb := monthsBetweenZ_toNat_spec hsm hs.2.2.1 hm.2.1
    have hidx := fun j => _add_months_index s j s.day hs.2.1
    have hbnd := fun j => _add_months_month_bounds s j s.day
    by_cases hc : _add_months s (monthsBetweenZ s m).toNat s.day < m
    · have heq : _first_monthly_on_or_after s m =
          (_add_months s ((monthsBetweenZ s m).toNat + 1) s.day,
            (monthsBetweenZ s m).toNat + 1) := by
        unfold _first_monthly_on_or_after
        simp only [if_neg hms, if_pos hc]
      rw [heq]
      refine ⟨rfl, ?_, ?_⟩
      · show m ≤ _add_months s ((monthsBetweenZ s m).toNat + 1) s.day
        apply Date.le_of_lt
        apply Date.lt_of_index_lt
        · have h1 := hidx ((monthsBetweenZ s m).toNat + 1)
          have h2 := (hbnd ((monthsBetweenZ s m).toNat + 1)).1
          omega
        · exact (hbnd ((monthsBetweenZ s m).toNat + 1)).2
      · show ∀ j < (monthsBetweenZ s m).toNat + 1, _add_months s j s.day < m
        intro j hj
        rcases Nat.lt_or_ge j (monthsBetweenZ s m).toNat with hjlt | hje
        · apply Date.lt_of_index_lt
          · have h1 := hidx j
            omega
          · exact hm.2.2.1
        · have hje2 : j = (monthsBetweenZ s m).toNat := by omega
          rw [hje2]
          exact hc
    · have heq : _first_monthly_on_or_after s m =
          (_add_months s (monthsBetweenZ s m).toNat s.day,
            (monthsBetweenZ s m).toNat) := by
        unfold _first_monthly_on_or_after
        simp only [if_neg hms, if_neg hc]
      rw [heq]
      refine ⟨rfl, Date.not_lt.mp hc, ?_⟩
      show ∀ j < (monthsBetweenZ s m).toNat, _add_months s j s.day < m
      intro j hj
      apply Date.lt_of_index_lt
      · have h1 := hidx j
        omega
      · exact hm.2.2.1

theorem _first_monthly_on_or_after_valid {s : Date} (m : Date) (hs : s.Valid) :
    (_first_monthly_on_or_after s m).1.Valid := by
  unfold _first_monthly_on_or_after
  by_cases hms : m ≤ s
  · rw [if_pos hms]
    exact hs
  · by_cases hc : _add_months s (monthsBetweenZ s m).toNat s.day < m
    · simp only [if_neg hms, if_pos hc]
      exact _add_months_valid hs.1 hs.2.2.2.1 _
    · simp only [if_neg hms, if_neg hc]
      exact _add_months_valid hs.1 hs.2.2.2.1 _

/-- `_add_months` is monotone in the month offset. -/
theorem _add_months_mono_le {s : Date} (hs : 1 ≤ s.month) (a : Nat)
    {m1 m2 : Nat} (h : m1 ≤ m2) :
    _add_months s m1 a ≤ _add_months s m2 a := by
  rcases Nat.lt_or_ge m1 m2 with hlt | hge
  · exact Date.le_of_lt (_add_months_strictMono hs a hlt)
  · have heq : m1 = m2 := by omega
    rw [heq]
    exact Date.le_refl _

/-- Characterization of `_first_yearly_on_or_after`: the result is the
day-clamped candidate at its offset (a whole number of years), lies on or
after `minimum_date`, and every smaller whole-year offset's clamped
candidate falls strictly before `minimum_date`. -/
theorem Recurring._first_yearly_on_or_after_spec {s m : Date} (hs : s.Valid)
    (hm : m.Valid) :
    (Recurring._first_yearly_on_or_after s m).1 =
        _add_months s (Recurring._first_yearly_on_or_after s m).2 s.day ∧
      m ≤ (Recurring._first_yearly_on_or_after s m).1 ∧
      (∃ k, (Recurring._first_yearly_on_or_after s m).2 = 12 * k) ∧
      ∀ j, 12 * j < (Recurring._first_yearly_on_or_after s m).2 →
        _add_months s (12 * j) s.day < m := by
  by_cases hms : m ≤ s
  · unfold Recurring._first_yearly_on_or_after
    rw [if_pos hms]
    refine ⟨(_add_months_zero hs).symm, hms, ⟨0, rfl⟩, ?_⟩
    intro j hj
    exact absurd hj (Nat.not_lt_zero _)
  · have hsm : s < m := Date.not_le.mp hms
    have hyy : s.year ≤ m.year := by
      have := hsm
      rw [Date.lt_def] at this
      omega
    have hY : (((m.year : Int) - s.year).toNat : Int) = (m.year : Int) - s.year := by
      omega
    have hidx := fun j => _add_months_index s j s.day hs.2.1
    have hbnd := fun j => _add_months_month_bounds s j s.day
    have hsm12 : s.month ≤ 12 := hs.2.2.1
    have hmm1 : 1 ≤ m.month := hm.2.1
    have hmm12 : m.month ≤ 12 := hm.2.2.1
    have hsm1 : 1 ≤ s.month := hs.2.1
    by_cases hc : _add_months s (((m.year : Int) - s.year).toNat * 12) s.day < m
    · have heq : Recurring._first_yearly_on_or_after s m =
          (_add_months s (((m.year : Int) - s.year).toNat * 12 + 12) s.day,
            ((m.year : Int) - s.year).toNat * 12 + 12) := by
        unfold Recurring._first_yearly_on_or_after
        simp only [if_neg hms, if_pos hc]
      rw [heq]
      refine ⟨rfl, ?_, ?_, ?_⟩
      · show m ≤ _add_months s (((m.year : Int) - s.year).toNat * 12 + 12) s.day
        apply Date.le_of_lt
        apply Date.lt_of_index_lt
        · have h1 := hidx (((m.year : Int) - s.year).toNat * 12 + 12)
          have h2 := (hbnd (((m.year : Int) - s.year).toNat * 12 + 12)).1
          omega
        · exact (hbnd (((m.year : Int) - s.year).toNat * 12 + 12)).2
      · exact ⟨((m.year : Int) - s.year).toNat + 1, by ring⟩
      · show ∀ j, 12 * j < ((m.year : Int) - s.year).toNat * 12 + 12 →
          _add_months s (12 * j) s.day < m
        intro j hj
        rcases Nat.lt_or_ge j ((m.year : Int) - s.year).toNat with hjlt | hje
        · apply Date.lt_of_index_lt
          · have h1 := hidx (12 * j)
            omega
          · exact hmm12
        · have hje2 : j = ((m.year : Int) - s.year).toNat := by omega
          rw [hje2, Nat.mul_comm]
          exact hc
    · have heq : Recurring._first_yearly_on_or_after s m =
          (_add_months s (((m.year : Int) - s.year).toNat * 12) s.day,
            ((m.year : Int) - s.year).toNat * 12) := by
        unfold Recurring._first_yearly_on_or_after
        simp only [if_neg hms, if_neg hc]
      rw [heq]
      refine ⟨rfl, Date.not_lt.mp hc, ⟨((m.year : Int) - s.year).toNat, by ring⟩, ?_⟩
      show ∀ j, 12 * j < ((m.year : Int) - s.year).toNat * 12 →
        _add_months s (12 * j) s.day < m
      intro j hj
      apply Date.lt_of_index_lt
      · have h1 := hidx (12 * j)
        omega
      · exact hmm12

theorem Recurring._first_yearly_on_or_after_valid {s : Date} (m : Date)
    (hs : s.Valid) : (Recurring._first_yearly_on_or_after s m).1.Valid := by
  unfold Recurring._first_yearly_on_or_after
  by_cases hms : m ≤ s
  · rw [if_pos hms]
    exact hs
  · by_cases hc : _add_months s (((m.year : Int) - s.year).toNat * 12) s.day < m
    · simp only [if_neg hms, if_pos hc]
      exact _add_months_valid hs.1 hs.2.2.2.1 _
    · simp only [if_neg hms, if_neg hc]
      exact _add_months_valid hs.1 hs.2.2.2.1 _

/-- The projection loop emits exactly the non-excluded occurrence dates,
wrapped as `ProjectedEntry` records. -/
theorem Recurring._projection_loop_eq_filter (schedule : Recurring.RecurringSchedule)
    (range_end : Date) (excl : Date → Bool) (tt : String) (inv : Bool)
    (cal : Bool) (minc itv : Nat) :
    ∀ fuel cur off,
      Recurring._projection_loop schedule range_end excl tt inv cal minc itv
          fuel cur off =
        ((_occurrence_dates schedule.start_date range_end cal minc itv
            schedule.start_date.day fuel cur off).filter (fun d => ! excl d)).map
          (fun d => Recurring.ProjectedEntry.mk d (_coerce_amount schedule.amount)
            schedule.account_id tt inv "projected" schedule.notes) := by
  intro fuel
  induction fuel with
  | zero => intro cur off; rfl
  | succ fuel ih =>
    intro cur off
    simp only [Recurring._projection_loop, _occurrence_dates]
    by_cases hle : cur ≤ range_end
    · rw [if_pos hle, if_pos hle]
      cases cal <;> by_cases hex : excl cur <;>
        simp [List.filter_cons, hex, ih]
    · rw [if_neg hle, if_neg hle]
      rfl

/-- Every generated occurrence is at most `range_end`. -/
theorem _occurrence_dates_le (start range_end : Date) (cal : Bool)
    (minc itv anchor : Nat) :
    ∀ fuel cur off d,
      d ∈ _occurrence_dates start range_end cal minc itv anchor fuel cur off →
        d ≤ range_end := by
  intro fuel
  induction fuel with
  | zero => intro cur off d h; exact absurd h (List.not_mem_nil d)
  | succ fuel ih =>
    intro cur off d h
    unfold _occurrence_dates at h
    by_cases hle : cur ≤ range_end
    · rw [if_pos hle] at h
      rcases List.mem_cons.mp h with rfl | htail
      · exact hle
      · cases cal with
        | true => exact ih _ _ d htail
        | false => exact ih _ _ d htail
    · rw [if_neg hle] at h
      exact absurd h (List.not_mem_nil d)

/-- Interval stepping: the `i`-th generated occurrence is
`cur + i · interval` days. -/
theorem _occurrence_dates_interval_get (start range_end : Date)
    (minc itv anchor : Nat) :
    ∀ fuel cur off i,
      i < (_occurrence_dates start range_end false minc itv anchor fuel cur off).length →
      (_occurrence_dates start range_end false minc itv anchor fuel cur off).get? i =
        some (cur.addDays (itv * i)) := by
  intro fuel
  induction fuel with
  | zero => intro cur off i h; exact absurd h (Nat.not_lt_zero i)
  | succ fuel ih =>
    intro cur off i h
    unfold _occurrence_dates at h ⊢
    by_cases hle : cur ≤ range_end
    · rw [if_pos hle] at h ⊢
      replace h : i < (cur :: _occurrence_dates start range_end false minc itv
          anchor fuel (cur.addDays itv) off).length := h
      show (cur :: _occurrence_dates start range_end false minc itv anchor fuel
          (cur.addDays itv) off).get? i = some (cur.addDays (itv * i))
      match i, h with
      | 0, _ => rfl
      | i + 1, h =>
        have harg : itv * (i + 1) = itv + itv * i := by ring
        rw [harg, addDays_add]
        simp only [List.get?_cons_succ]
        exact ih (cur.addDays itv) off i (by simpa using h)
    · rw [if_neg hle] at h
      exact absurd h (Nat.not_lt_zero i)

/-- Calendar stepping: the `i`-th generated occurrence is the clamped
candidate at offset `off + i · month_increment`. -/
theorem _occurrence_dates_cal_get (start range_end : Date)
    (minc itv anchor : Nat) :
    ∀ fuel off i,
      i < (_occurrence_dates start range_end true minc itv anchor fuel
        (_add_months start off anchor) off).length →
      (_occurrence_dates start range_end true minc itv anchor fuel
          (_add_months start off anchor) off).get? i =
        some (_add_months start (off + minc * i) anchor) := by
  intro fuel
  induction fuel with
  | zero => intro off i h; exact absurd h (Nat.not_lt_zero i)
  | succ fuel ih =>
    intro off i h
    unfold _occurrence_dates at h ⊢
    by_cases hle : _add_months start off anchor ≤ range_end
    · rw [if_pos hle] at h ⊢
      replace h : i < (_add_months start off anchor ::
          _occurrence_dates start range_end true minc itv anchor fuel
            (_add_months start (off + minc) anchor) (off + minc)).length := h
      show (_add_months start off anchor ::
          _occurrence_dates start range_end true minc itv anchor fuel
            (_add_months start (off + minc) anchor) (off + minc)).get? i =
        some (_add_months start (off + minc * i) anchor)
      match i, h with
      | 0, _ =>
        have harg : off + minc * 0 = off := by ring
        rw [harg]
        rfl
      | i + 1, h =>
        have harg : off + minc * (i + 1) = (off + minc) + minc * i := by ring
        rw [harg]
        simp only [List.get?_cons_succ]
        exact ih (off + minc) i (by simpa using h)
    · rw [if_neg hle] at h
      exact absurd h (Nat.not_lt_zero i)

theorem _occurrence_dates_interval_mem {start range_end : Date}
    {minc itv anchor fuel : Nat} {cur : Date} {off : Nat} {d : Date}
    (h : d ∈ _occurrence_dates start range_end false minc itv anchor fuel cur off) :
    ∃ k, d = cur.addDays (itv * k) := by
  obtain ⟨n, hn⟩ := List.mem_iff_get.mp h
  have hg := _occurrence_dates_interval_get start range_end minc itv anchor
    fuel cur off n.1 n.isLt
  rw [List.get?_eq_get n.isLt] at hg
  refine ⟨n.1, ?_⟩
  rw [← hn]
  exact Option.some.inj (by simpa using hg)

theorem _occurrence_dates_cal_mem {start range_end : Date}
    {minc itv anchor fuel off : Nat} {d : Date}
    (h : d ∈ _occurrence_dates start range_end true minc itv anchor fuel
      (_add_months start off anchor) off) :
    ∃ k, d = _add_months start (off + minc * k) anchor := by
  obtain ⟨n, hn⟩ := List.mem_iff_get.mp h
  have hg := _occurrence_dates_cal_get start range_end minc itv anchor
    fuel off n.1 n.isLt
  rw [List.get?_eq_get n.isLt] at hg
  refine ⟨n.1, ?_⟩
  rw [← hn]
  exact Option.some.inj (by simpa using hg)

/-- All dates generated from an interval first occurrence lie in the
window. -/
theorem _occurrence_dates_interval_bounds {start rs re : Date}
    (hs : start.Valid) (hrs : rs.Valid) {itv : Nat} (hitv : 0 < itv)
    (minc anchor fuel off : Nat) {d : Date}
    (h : d ∈ _occurrence_dates start re false minc itv anchor fuel
      (_first_occurrence_on_or_after start rs itv) off) :
    rs ≤ d ∧ d ≤ re := by
  refine ⟨?_, _occurrence_dates_le start re false minc itv anchor fuel _ off d h⟩
  obtain ⟨k, rfl⟩ := _occurrence_dates_interval_mem h
  have hv1 : (_first_occurrence_on_or_after start rs itv).Valid :=
    _first_occurrence_on_or_after_valid rs hs itv
  have h1 : rs ≤ _first_occurrence_on_or_after start rs itv :=
    _first_occurrence_on_or_after_ge hs hrs hitv
  refine Date.le_trans h1 ?_
  apply le_of_toRD_le hv1 (addDays_valid hv1 _)
  rw [toRD_addDays hv1]
  omega

/-- All dates generated from a calendar first occurrence on or after
`range_start` lie in the window. -/
theorem _occurrence_dates_cal_bounds {start rs re : Date}
    (hsm : 1 ≤ start.month) {anchor : Nat} (minc itv fuel off : Nat)
    (hge : rs ≤ _add_months start off anchor) {d : Date}
    (h : d ∈ _occurrence_dates start re true minc itv anchor fuel
      (_add_months start off anchor) off) :
    rs ≤ d ∧ d ≤ re := by
  refine ⟨?_, _occurrence_dates_le start re true minc itv anchor fuel _ off d h⟩
  obtain ⟨k, rfl⟩ := _occurrence_dates_cal_mem h
  exact Date.le_trans hge (_add_months_mono_le hsm anchor (by omega))

/-- Membership in the supported-frequency set, spelled out. -/
theorem Recurring.mem_SUPPORTED_FREQUENCIES_iff (x : String) :
    Recurring.SUPPORTED_FREQUENCIES.contains x = true ↔
      (x = "weekly" ∨ x = "biweekly" ∨ x = "monthly" ∨ x = "yearly") := by
  simp [Recurring.SUPPORTED_FREQUENCIES]

theorem Recurring._validate_frequency_ok_iff (f nf : String) :
    Recurring._validate_frequency f = Except.ok nf ↔
      ((if _normalize_frequency f == "byweekly" then "biweekly"
          else _normalize_frequency f) = nf ∧
        (nf = "weekly" ∨ nf = "biweekly" ∨ nf = "monthly" ∨ nf = "yearly")) := by
  unfold Recurring._validate_frequency
  by_cases hc : Recurring.SUPPORTED_FREQUENCIES.contains
      (if _normalize_frequency f == "byweekly" then "biweekly"
        else _normalize_frequency f) = true
  · rw [if_pos hc]
    rw [Recurring.mem_SUPPORTED_FREQUENCIES_iff] at hc
    constructor
    · intro h
      have he := Except.ok.inj h
      exact ⟨he, he ▸ hc⟩
    · intro ⟨h1, h2⟩
      rw [h1]
  · rw [if_neg hc]
    rw [Recurring.mem_SUPPORTED_FREQUENCIES_iff] at hc
    constructor
    · intro h
      exact absurd h (by simp)
    · intro ⟨h1, h2⟩
      rw [← h1] at h2
      exact absurd h2 hc

theorem Recurring._validate_frequency_error_elim {f : String} {e : ProjError}
    (h : Recurring._validate_frequency f = Except.error e) :
    e = ProjError.InvalidFrequency := by
  unfold Recurring._validate_frequency at h
  by_cases hc : Recurring.SUPPORTED_FREQUENCIES.contains
      (if _normalize_frequency f == "byweekly" then "biweekly"
        else _normalize_frequency f) = true
  · rw [if_pos hc] at h
    exact absurd h (by simp)
  · rw [if_neg hc] at h
    exact (Except.error.inj h).symm

/-- Membership in the supported-kind set, spelled out. -/
theorem Recurring.mem_SUPPORTED_KINDS_iff (x : String) :
    Recurring.SUPPORTED_KINDS.contains x = true ↔
      (x = "income" ∨ x = "expense" ∨ x = "investment") := by
  simp [Recurring.SUPPORTED_KINDS]

theorem Recurring._validate_kind_ok_iff (k nk : String) :
    Recurring._validate_kind k = Except.ok nk ↔
      (Recurring._normalize_kind k = nk ∧
        (nk = "income" ∨ nk = "expense" ∨ nk = "investment")) := by
  unfold Recurring._validate_kind
  by_cases hc : Recurring.SUPPORTED_KINDS.contains (Recurring._normalize_kind k) = true
  · rw [if_pos hc]
    rw [Recurring.mem_SUPPORTED_KINDS_iff] at hc
    constructor
    · intro h
      have he := Except.ok.inj h
      exact ⟨he, he ▸ hc⟩
    · intro ⟨h1, h2⟩
      rw [h1]
  · rw [if_neg hc]
    rw [Recurring.mem_SUPPORTED_KINDS_iff] at hc
    constructor
    · intro h
      exact absurd h (by simp)
    · intro ⟨h1, h2⟩
      rw [← h1] at h2
      exact absurd h2 hc

theorem Recurring._validate_kind_error_elim {k : String} {e : ProjError}
    (h : Recurring._validate_kind k = Except.error e) :
    e = ProjError.InvalidKind := by
  unfold Recurring._validate_kind at h
  by_cases hc : Recurring.SUPPORTED_KINDS.contains (_normalize_kind k) = true
  · rw [if_pos hc] at h
    exact absurd h (by simp)
  · rw [if_neg hc] at h
    exact (Except.error.inj h).symm

theorem Recurring._generate_weekly (s : Recurring.RecurringSchedule)
    (rs re : Date) (ex : Date → Bool) (nk : String) :
    Recurring._generate s rs re ex "weekly" nk =
      Recurring._projection_loop s re ex (Recurring.KIND_TO_PROJECTION nk).1
        (Recurring.KIND_TO_PROJECTION nk).2 false 0 WEEKLY_DAYS
        (re.toRD + 1 -
          (_first_occurrence_on_or_after s.start_date rs WEEKLY_DAYS).toRD)
        (_first_occurrence_on_or_after s.start_date rs WEEKLY_DAYS) 0 := rfl

theorem Recurring._generate_biweekly (s : Recurring.RecurringSchedule)
    (rs re : Date) (ex : Date → Bool) (nk : String) :
    Recurring._generate s rs re ex "biweekly" nk =
      Recurring._projection_loop s re ex (Recurring.KIND_TO_PROJECTION nk).1
        (Recurring.KIND_TO_PROJECTION nk).2 false 0 BIWEEKLY_DAYS
        (re.toRD + 1 -
          (_first_occurrence_on_or_after s.start_date rs BIWEEKLY_DAYS).toRD)
        (_first_occurrence_on_or_after s.start_date rs BIWEEKLY_DAYS) 0 := rfl

theorem Recurring._generate_monthly (s : Recurring.RecurringSchedule)
    (rs re : Date) (ex : Date → Bool) (nk : String) :
    Recurring._generate s rs re ex "monthly" nk =
      Recurring._projection_loop s re ex (Recurring.KIND_TO_PROJECTION nk).1
        (Recurring.KIND_TO_PROJECTION nk).2 true 1 0
        (re.toRD + 1 - (_first_monthly_on_or_after s.start_date rs).1.toRD)
        (_first_monthly_on_or_after s.start_date rs).1
        (_first_monthly_on_or_after s.start_date rs).2 := rfl

theorem Recurring._generate_yearly (s : Recurring.RecurringSchedule)
    (rs re : Date) (ex : Date → Bool) (nk : String) :
    Recurring._generate s rs re ex "yearly" nk =
      Recurring._projection_loop s re ex (Recurring.KIND_TO_PROJECTION nk).1
        (Recurring.KIND_TO_PROJECTION nk).2 true 12 0
        (re.toRD + 1 - (Recurring._first_yearly_on_or_after s.start_date rs).1.toRD)
        (Recurring._first_yearly_on_or_after s.start_date rs).1
        (Recurring._first_yearly_on_or_after s.start_date rs).2 := rfl

theorem Recurring._generated_dates_weekly (s : Recurring.RecurringSchedule)
    (rs re : Date) :
    Recurring._generated_dates s rs re "weekly" =
      _occurrence_dates s.start_date re false 0 WEEKLY_DAYS s.start_date.day
        (re.toRD + 1 -
          (_first_occurrence_on_or_after s.start_date rs WEEKLY_DAYS).toRD)
        (_first_occurrence_on_or_after s.start_date rs WEEKLY_DAYS) 0 := rfl

theorem Recurring._generated_dates_biweekly (s : Recurring.RecurringSchedule)
    (rs re : Date) :
    Recurring._generated_dates s rs re "biweekly" =
      _occurrence_dates s.start_date re false 0 BIWEEKLY_DAYS s.start_date.day
        (re.toRD + 1 -
          (_first_occurrence_on_or_after s.start_date rs BIWEEKLY_DAYS).toRD)
        (_first_occurrence_on_or_after s.start_date rs BIWEEKLY_DAYS) 0 := rfl

theorem Recurring._generated_dates_monthly (s : Recurring.RecurringSchedule)
    (rs re : Date) :
    Recurring._generated_dates s rs re "monthly" =
      _occurrence_dates s.start_date re true 1 0 s.start_date.day
        (re.toRD + 1 - (_first_monthly_on_or_after s.start_date rs).1.toRD)
        (_first_monthly_on_or_after s.start_date rs).1
        (_first_monthly_on_or_after s.start_date rs).2 := rfl

theorem Recurring._generated_dates_yearly (s : Recurring.RecurringSchedule)
    (rs re : Date) :
    Recurring._generated_dates s rs re "yearly" =
      _occurrence_dates s.start_date re true 12 0 s.start_date.day
        (re.toRD + 1 - (Recurring._first_yearly_on_or_after s.start_date rs).1.toRD)
        (Recurring._first_yearly_on_or_after s.start_date rs).1
        (Recurring._first_yearly_on_or_after s.start_date rs).2 := rfl

/-- Window containment for the post-validation generator. -/
theorem Recurring._generate_bounds {s : Recurring.RecurringSchedule}
    {rs re : Date} {ex : Date → Bool} {nf nk : String}
    (hs : s.start_date.Valid) (hrs : rs.Valid)
    (hnf : nf = "weekly" ∨ nf = "biweekly" ∨ nf = "monthly" ∨ nf = "yearly") :
    ∀ e ∈ Recurring._generate s rs re ex nf nk, rs ≤ e.date ∧ e.date ≤ re := by
  intro e he
  rcases hnf with rfl | rfl | rfl | rfl
  · rw [Recurring._generate_weekly, Recurring._projection_loop_eq_filter] at he
    obtain ⟨d, hd, rfl⟩ := List.mem_map.mp he
    exact _occurrence_dates_interval_bounds hs hrs (by decide) 0
      s.start_date.day _ 0 (List.mem_of_mem_filter hd)
  · rw [Recurring._generate_biweekly, Recurring._projection_loop_eq_filter] at he
    obtain ⟨d, hd, rfl⟩ := List.mem_map.mp he
    exact _occurrence_dates_interval_bounds hs hrs (by decide) 0
      s.start_date.day _ 0 (List.mem_of_mem_filter hd)
  · rw [Recurring._generate_monthly, Recurring._projection_loop_eq_filter] at he
    obtain ⟨d, hd, rfl⟩ := List.mem_map.mp he
    obtain ⟨hfst, hge, hmin⟩ := _first_monthly_on_or_after_spec hs hrs
    rw [hfst] at hd hge
    exact _occurrence_dates_cal_bounds hs.2.1 1 0 _ _ hge
      (List.mem_of_mem_filter hd)
  · rw [Recurring._generate_yearly, Recurring._projection_loop_eq_filter] at he
    obtain ⟨d, hd, rfl⟩ := List.mem_map.mp he
    obtain ⟨hfst, hge, hmul, hmin⟩ := Recurring._first_yearly_on_or_after_spec hs hrs
    rw [hfst] at hd hge
    exact _occurrence_dates_cal_bounds hs.2.1 12 0 _ _ hge
      (List.mem_of_mem_filter hd)

theorem Recurring._project_schedule_ok_elim {s : Recurring.RecurringSchedule}
    {rs re : Date} {idx : Int → String → Date → Bool} {cr : Bool}
    {l : List Recurring.ProjectedEntry}
    (h : Recurring._project_schedule s rs re idx cr = Except.ok l) :
    ∃ nf nk, Recurring._validate_frequency s.frequency = Except.ok nf ∧
      Recurring._validate_kind s.kind = Except.ok nk ∧
      ¬ (cr = true ∧ re < rs) ∧ ¬ s.amount ≤ 0 ∧
      l = Recurring._generate s rs re
        (Recurring._excluded_dates_for_schedule s nk idx) nf nk := by
  unfold Recurring._project_schedule at h
  by_cases h1 : cr = true ∧ re < rs
  · rw [if_pos h1] at h
    exact absurd h (by simp)
  · rw [if_neg h1] at h
    by_cases h2 : s.amount ≤ 0
    · rw [if_pos h2] at h
      exact absurd h (by simp)
    · rw [if_neg h2] at h
      cases hf : Recurring._validate_frequency s.frequency with
      | error e =>
        rw [hf] at h
        exact absurd h (by simp)
      | ok nf =>
        rw [hf] at h
        cases hk : Recurring._validate_kind s.kind with
        | error e =>
          rw [hk] at h
          exact absurd h (by simp)
        | ok nk =>
          rw [hk] at h
          exact ⟨nf, nk, rfl, rfl, h1, h2, (Except.ok.inj h).symm⟩

theorem Recurring._project_schedule_ok_intro (s : Recurring.RecurringSchedule)
    (rs re : Date) (idx : Int → String → Date → Bool) (cr : Bool)
    (h1 : ¬ (cr = true ∧ re < rs)) (h2 : ¬ s.amount ≤ 0) {nf nk : String}
    (hf : Recurring._validate_frequency s.frequency = Except.ok nf)
    (hk : Recurring._validate_kind s.kind = Except.ok nk) :
    Recurring._project_schedule s rs re idx cr =
      Except.ok (Recurring._generate s rs re
        (Recurring._excluded_dates_for_schedule s nk idx) nf nk) := by
  unfold Recurring._project_schedule
  rw [if_neg h1, if_neg h2, hf, hk]

theorem Recurring._project_schedule_bounds {s : Recurring.RecurringSchedule}
    {rs re : Date} {idx : Int → String → Date → Bool} {cr : Bool}
    {l : List Recurring.ProjectedEntry}
    (hs : s.start_date.Valid) (hrs : rs.Valid)
    (h : Recurring._project_schedule s rs re idx cr = Except.ok l) :
    ∀ e ∈ l, rs ≤ e.date ∧ e.date ≤ re := by
  obtain ⟨nf, nk, hf, hk, _, _, rfl⟩ := Recurring._project_schedule_ok_elim h
  exact Recurring._generate_bounds hs hrs
    ((Recurring._validate_frequency_ok_iff s.frequency nf).mp hf).2

theorem Recurring._project_schedules_loop_bounds {rs re : Date}
    {idx : Int → String → Date → Bool} :
    ∀ {ss : List Recurring.RecurringSchedule} {l : List Recurring.ProjectedEntry},
      (∀ sc ∈ ss, sc.start_date.Valid) → rs.Valid →
      Recurring._project_schedules_loop rs re idx ss = Except.ok l →
      ∀ e ∈ l, rs ≤ e.date ∧ e.date ≤ re := by
  intro ss
  induction ss with
  | nil =>
    intro l _ _ h e he
    have hl : ([] : List Recurring.ProjectedEntry) = l := Except.ok.inj h
    rw [← hl] at he
    exact absurd he (List.not_mem_nil e)
  | cons s rest ih =>
    intro l hv hrs h e he
    unfold Recurring._project_schedules_loop at h
    cases h1 : Recurring._project_schedule s rs re idx false with
    | error e1 =>
      rw [h1] at h
      exact absurd h (by simp)
    | ok l1 =>
      rw [h1] at h
      cases h2 : Recurring._project_schedules_loop rs re idx rest with
      | error e2 =>
        rw [h2] at h
        exact absurd h (by simp)
      | ok l2 =>
        rw [h2] at h
        have hl : l1 ++ l2 = l := Except.ok.inj h
        rw [← hl] at he
        rcases List.mem_append.mp he with h3 | h3
        · exact Recurring._project_schedule_bounds (hv s (by simp)) hrs h1 e h3
        · exact ih (fun sc hsc => hv sc (by simp [hsc])) hrs h2 e h3

/-- C1: for every call to `project_recurring_schedule` or
`project_recurring_schedules` that returns a list without raising, every
`ProjectedEntry` in that list has a date `d` with
`range_start ≤ d ≤ range_end`. -/
theorem C1_window_containment
    (s : Recurring.RecurringSchedule) (ss : List Recurring.RecurringSchedule)
    (rs re : Date) (txns : List Recurring.ActualTransaction)
    (hs : s.start_date.Valid) (hss : ∀ sc ∈ ss, sc.start_date.Valid)
    (hrs : rs.Valid) :
    (∀ l, Recurring.project_recurring_schedule s rs re txns = Except.ok l →
      ∀ e ∈ l, rs ≤ e.date ∧ e.date ≤ re) ∧
    (∀ l, Recurring.project_recurring_schedules ss rs re txns = Except.ok l →
      ∀ e ∈ l, rs ≤ e.date ∧ e.date ≤ re) := by
  constructor
  · intro l h e he
    unfold Recurring.project_recurring_schedule at h
    exact Recurring._project_schedule_bounds hs hrs h e he
  · intro l h e he
    unfold Recurring.project_recurring_schedules at h
    by_cases hr : re < rs
    · rw [if_pos hr] at h
      exact absurd h (by simp)
    · rw [if_neg hr] at h
      exact Recurring._project_schedules_loop_bounds hss hrs h e he

/-- Witness for C1 at a concrete biweekly schedule and window. -/
theorem C1_window_containment_witness :
    ((Date.mk 2024 1 5).Valid ∧
      (∀ sc ∈ [Recurring.RecurringSchedule.mk 1 ⟨2024, 1, 5⟩ 1 none "biweekly"
        "income" none none], sc.start_date.Valid) ∧ (Date.mk 2024 1 1).Valid) ∧
    ((∀ l, Recurring.project_recurring_schedule
        (Recurring.RecurringSchedule.mk 1 ⟨2024, 1, 5⟩ 1 none "biweekly"
          "income" none none) ⟨2024, 1, 1⟩ ⟨2024, 2, 15⟩ [] = Except.ok l →
        ∀ e ∈ l, (Date.mk 2024 1 1) ≤ e.date ∧ e.date ≤ (Date.mk 2024 2 15)) ∧
      (∀ l, Recurring.project_recurring_schedules
        [Recurring.RecurringSchedule.mk 1 ⟨2024, 1, 5⟩ 1 none "biweekly"
          "income" none none] ⟨2024, 1, 1⟩ ⟨2024, 2, 15⟩ [] = Except.ok l →
        ∀ e ∈ l, (Date.mk 2024 1 1) ≤ e.date ∧ e.date ≤ (Date.mk 2024 2 15))) :=
  ⟨⟨by decide, by decide, by decide⟩,
    C1_window_containment
      (Recurring.RecurringSchedule.mk 1 ⟨2024, 1, 5⟩ 1 none "biweekly"
        "income" none none)
      [Recurring.RecurringSchedule.mk 1 ⟨2024, 1, 5⟩ 1 none "biweekly"
        "income" none none]
      ⟨2024, 1, 1⟩ ⟨2024, 2, 15⟩ [] (by decide) (by decide) (by decide)⟩

/-- The exclusion test of a schedule against an indexed snapshot, spelled
out as an existential over the supplied transactions. -/
theorem Recurring._excluded_iff {s : Recurring.RecurringSchedule} {nk : String}
    (hnk : nk = "income" ∨ nk = "expense" ∨ nk = "investment")
    (txns : List Recurring.ActualTransaction) (d : Date) :
    Recurring._excluded_dates_for_schedule s nk
        (Recurring._index_existing_transactions txns) d = true ↔
      ∃ t ∈ txns, t.account_id = s.account_id ∧
        Recurring._normalize_kind t.type = nk ∧ t.date = d := by
  have hats : Recurring.KIND_TO_ACTUAL_TYPES nk = [nk] := by
    rcases hnk with rfl | rfl | rfl <;> rfl
  unfold Recurring._excluded_dates_for_schedule
    Recurring._index_existing_transactions
  rw [hats]
  simp [List.any_eq_true, and_assoc]

/-- The dates of the generated entries are the non-excluded candidate
dates, in order. -/
theorem Recurring._generate_map_date (s : Recurring.RecurringSchedule)
    (rs re : Date) (ex : Date → Bool) (nf nk : String)
    (hnf : nf = "weekly" ∨ nf = "biweekly" ∨ nf = "monthly" ∨ nf = "yearly") :
    (Recurring._generate s rs re ex nf nk).map (fun e => e.date) =
      (Recurring._generated_dates s rs re nf).filter (fun d => ! ex d) := by
  rcases hnf with rfl | rfl | rfl | rfl
  · rw [Recurring._generate_weekly, Recurring._projection_loop_eq_filter,
      Recurring._generated_dates_weekly, List.map_map]
    simp only [Function.comp_def]
    exact List.map_id _
  · rw [Recurring._generate_biweekly, Recurring._projection_loop_eq_filter,
      Recurring._generated_dates_biweekly, List.map_map]
    simp only [Function.comp_def]
    exact List.map_id _
  · rw [Recurring._generate_monthly, Recurring._projection_loop_eq_filter,
      Recurring._generated_dates_monthly, List.map_map]
    simp only [Function.comp_def]
    exact List.map_id _
  · rw [Recurring._generate_yearly, Recurring._projection_loop_eq_filter,
      Recurring._generated_dates_yearly, List.map_map]
    simp only [Function.comp_def]
    exact List.map_id _

/-- C2: a candidate date produced by the generator appears in the output
iff no supplied actual transaction with the schedule's account and the
kind's matching actual-type falls on it; all other generated dates are
present. -/
theorem C2_exclusion_correctness (s : Recurring.RecurringSchedule)
    (rs re : Date) (txns : List Recurring.ActualTransaction)
    {l : List Recurring.ProjectedEntry} {nf nk : String}
    (hf : Recurring._validate_frequency s.frequency = Except.ok nf)
    (hk : Recurring._validate_kind s.kind = Except.ok nk)
    (hok : Recurring.project_recurring_schedule s rs re txns = Except.ok l) :
    ∀ d, d ∈ l.map (fun e => e.date) ↔
      (d ∈ Recurring._generated_dates s rs re nf ∧
        ¬ ∃ t ∈ txns, t.account_id = s.account_id ∧
          Recurring._normalize_kind t.type = nk ∧ t.date = d) := by
  unfold Recurring.project_recurring_schedule at hok
  obtain ⟨nf', nk', hf', hk', _, _, rfl⟩ := Recurring._project_schedule_ok_elim hok
  rw [hf] at hf'
  rw [hk] at hk'
  have hnf : nf = nf' := Except.ok.inj hf'
  have hnk : nk = nk' := Except.ok.inj hk'
  subst hnf
  subst hnk
  intro d
  rw [Recurring._generate_map_date s rs re _ nf nk
    ((Recurring._validate_frequency_ok_iff s.frequency nf).mp hf).2]
  rw [List.mem_filter]
  rw [← Recurring._excluded_iff
    ((Recurring._validate_kind_ok_iff s.kind nk).mp hk).2 txns d]
  simp

/-- Witness for C2 at a concrete biweekly schedule with one matching
actual transaction. -/
theorem C2_exclusion_correctness_witness :
    (Recurring._validate_frequency "biweekly" = Except.ok "biweekly" ∧
      Recurring._validate_kind "income" = Except.ok "income" ∧
      Recurring.project_recurring_schedule
        (Recurring.RecurringSchedule.mk 1 ⟨2024, 1, 5⟩ 1 none "biweekly"
          "income" none none) ⟨2024, 1, 1⟩ ⟨2024, 2, 2⟩
        [Recurring.ActualTransaction.mk ⟨2024, 1, 19⟩ 1 "income"] =
        Except.ok
          [Recurring.ProjectedEntry.mk ⟨2024, 1, 5⟩ 1 1 "income" false
            "projected" none,
          Recurring.ProjectedEntry.mk ⟨2024, 2, 2⟩ 1 1 "income" false
            "projected" none]) ∧
    (∀ d, d ∈ ([Recurring.ProjectedEntry.mk ⟨2024, 1, 5⟩ 1 1 "income" false
            "projected" none,
          Recurring.ProjectedEntry.mk ⟨2024, 2, 2⟩ 1 1 "income" false
            "projected" none].map (fun e => e.date)) ↔
      (d ∈ Recurring._generated_dates
          (Recurring.RecurringSchedule.mk 1 ⟨2024, 1, 5⟩ 1 none "biweekly"
            "income" none none) ⟨2024, 1, 1⟩ ⟨2024, 2, 2⟩ "biweekly" ∧
        ¬ ∃ t ∈ [Recurring.ActualTransaction.mk ⟨2024, 1, 19⟩ 1 "income"],
          t.account_id = 1 ∧ Recurring._normalize_kind t.type = "income" ∧
            t.date = d)) :=
  ⟨⟨rfl, rfl, rfl⟩,
    C2_exclusion_correctness
      (Recurring.RecurringSchedule.mk 1 ⟨2024, 1, 5⟩ 1 none "biweekly"
        "income" none none) ⟨2024, 1, 1⟩ ⟨2024, 2, 2⟩
      [Recurring.ActualTransaction.mk ⟨2024, 1, 19⟩ 1 "income"]
      rfl rfl rfl⟩

/-- `(days + itv - 1) / itv` is the least `q` with `days ≤ itv * q`:
the ceiling of `days / itv`. -/
theorem ceil_div_minimal {days itv : Nat} (hitv : 0 < itv) :
    days ≤ itv * ((days + itv - 1) / itv) ∧
    ∀ r, days ≤ itv * r → (days + itv - 1) / itv ≤ r := by
  have hdm := Nat.div_add_mod (days + itv - 1) itv
  have hlt : (days + itv - 1) % itv < itv := Nat.mod_lt _ hitv
  constructor
  · omega
  · intro r hr
    have h2 : itv * ((days + itv - 1) / itv) < itv * (r + 1) := by
      have hmul : itv * (r + 1) = itv * r + itv := by ring
      omega
    have := Nat.lt_of_mul_lt_mul_left h2
    omega

/-- The head of the generated occurrence list, when present, is the
supplied first occurrence. -/
theorem _occurrence_dates_head (start re : Date) (cal : Bool)
    (minc itv anchor : Nat) :
    ∀ fuel cur off d,
      (_occurrence_dates start re cal minc itv anchor fuel cur off).head? =
        some d → d = cur := by
  intro fuel cur off d h
  cases fuel with
  | zero => exact absurd h (by simp [_occurrence_dates])
  | succ f =>
    unfold _occurrence_dates at h
    by_cases hle : cur ≤ re
    · rw [if_pos hle] at h
      simp only [List.head?_cons, Option.some.injEq] at h
      exact h.symm
    · rw [if_neg hle] at h
      exact absurd h (by simp)

/-- C4: weekly/biweekly occurrences are in phase with `start_date`,
consecutive occurrences are exactly one interval apart, and the first
occurrence is `start_date` itself or `start_date` plus the least whole
number of intervals reaching `range_start`. -/
theorem C4_interval_phase (s : Recurring.RecurringSchedule) (rs re : Date)
    {nf : String} {itv : Nat} (hs : s.start_date.Valid)
    (hnf : (nf = "weekly" ∧ itv = WEEKLY_DAYS) ∨
      (nf = "biweekly" ∧ itv = BIWEEKLY_DAYS)) :
    (∀ d ∈ Recurring._generated_dates s rs re nf,
      ∃ k, d = s.start_date.addDays (itv * k)) ∧
    (∀ i a b, (Recurring._generated_dates s rs re nf).get? i = some a →
      (Recurring._generated_dates s rs re nf).get? (i + 1) = some b →
      b = a.addDays itv) ∧
    (rs ≤ s.start_date →
      _first_occurrence_on_or_after s.start_date rs itv = s.start_date) ∧
    (¬ rs ≤ s.start_date →
      ∃ q, _first_occurrence_on_or_after s.start_date rs itv =
          s.start_date.addDays (itv * q) ∧
        rs.subDays s.start_date ≤ itv * q ∧
        ∀ r, rs.subDays s.start_date ≤ itv * r → q ≤ r) ∧
    (∀ d, (Recurring._generated_dates s rs re nf).head? = some d →
      d = _first_occurrence_on_or_after s.start_date rs itv) := by
  have hitv : 0 < itv := by rcases hnf with ⟨_, rfl⟩ | ⟨_, rfl⟩ <;> decide
  have hgd : Recurring._generated_dates s rs re nf =
      _occurrence_dates s.start_date re false 0 itv s.start_date.day
        (re.toRD + 1 -
          (_first_occurrence_on_or_after s.start_date rs itv).toRD)
        (_first_occurrence_on_or_after s.start_date rs itv) 0 := by
    rcases hnf with ⟨rfl, rfl⟩ | ⟨rfl, rfl⟩
    · exact Recurring._generated_dates_weekly s rs re
    · exact Recurring._generated_dates_biweekly s rs re
  refine ⟨?_, ?_, ?_, ?_, ?_⟩
  · intro d hd
    rw [hgd] at hd
    obtain ⟨k, rfl⟩ := _occurrence_dates_interval_mem hd
    obtain ⟨k0, hk0⟩ := _first_occurrence_on_or_after_phase s.start_date rs itv
    rw [hk0, ← addDays_add]
    exact ⟨k0 + k, by rw [Nat.mul_add]⟩
  · intro i a b ha hb
    rw [hgd] at ha hb
    obtain ⟨hia, hga⟩ := List.get?_eq_some.mp ha
    obtain ⟨hib, hgb⟩ := List.get?_eq_some.mp hb
    have h1 := _occurrence_dates_interval_get s.start_date re 0 itv
      s.start_date.day _ _ 0 i hia
    have h2 := _occurrence_dates_interval_get s.start_date re 0 itv
      s.start_date.day _ _ 0 (i + 1) hib
    rw [ha] at h1
    rw [hb] at h2
    have ha2 : a = (_first_occurrence_on_or_after s.start_date rs itv).addDays
        (itv * i) := Option.some.inj h1
    have hb2 : b = (_first_occurrence_on_or_after s.start_date rs itv).addDays
        (itv * (i + 1)) := Option.some.inj h2
    rw [ha2, hb2, ← addDays_add]
    have : itv * (i + 1) = itv * i + itv := by ring
    rw [this]
  · intro hle
    unfold _first_occurrence_on_or_after
    rw [if_pos hle]
  · intro hle
    unfold _first_occurrence_on_or_after
    rw [if_neg hle]
    refine ⟨(rs.subDays s.start_date + itv - 1) / itv, rfl, ?_, ?_⟩
    · exact (ceil_div_minimal hitv).1
    · exact (ceil_div_minimal hitv).2
  · intro d hd
    rw [hgd] at hd
    exact _occurrence_dates_head s.start_date re false 0 itv
      s.start_date.day _ _ 0 d hd

/-- Witness for C4 at a concrete weekly schedule whose window starts
mid-cycle. -/
theorem C4_interval_phase_witness :
    (Date.mk 2024 1 1).Valid ∧
    ((∀ d ∈ Recurring._generated_dates
        (Recurring.RecurringSchedule.mk 1 ⟨2024, 1, 1⟩ 1 none "weekly"
          "income" none none) ⟨2024, 1, 10⟩ ⟨2024, 2, 1⟩ "weekly",
      ∃ k, d = (Date.mk 2024 1 1).addDays (WEEKLY_DAYS * k)) ∧
    (∀ i a b, (Recurring._generated_dates
        (Recurring.RecurringSchedule.mk 1 ⟨2024, 1, 1⟩ 1 none "weekly"
          "income" none none) ⟨2024, 1, 10⟩ ⟨2024, 2, 1⟩ "weekly").get? i =
          some a →
      (Recurring._generated_dates
        (Recurring.RecurringSchedule.mk 1 ⟨2024, 1, 1⟩ 1 none "weekly"
          "income" none none) ⟨2024, 1, 10⟩ ⟨2024, 2, 1⟩ "weekly").get? (i + 1) =
          some b → b = a.addDays WEEKLY_DAYS) ∧
    ((Date.mk 2024 1 10) ≤ (Date.mk 2024 1 1) →
      _first_occurrence_on_or_after ⟨2024, 1, 1⟩ ⟨2024, 1, 10⟩ WEEKLY_DAYS =
        ⟨2024, 1, 1⟩) ∧
    (¬ (Date.mk 2024 1 10) ≤ (Date.mk 2024 1 1) →
      ∃ q, _first_occurrence_on_or_after ⟨2024, 1, 1⟩ ⟨2024, 1, 10⟩ WEEKLY_DAYS =
          (Date.mk 2024 1 1).addDays (WEEKLY_DAYS * q) ∧
        (Date.mk 2024 1 10).subDays ⟨2024, 1, 1⟩ ≤ WEEKLY_DAYS * q ∧
        ∀ r, (Date.mk 2024 1 10).subDays ⟨2024, 1, 1⟩ ≤ WEEKLY_DAYS * r → q ≤ r) ∧
    (∀ d, (Recurring._generated_dates
        (Recurring.RecurringSchedule.mk 1 ⟨2024, 1, 1⟩ 1 none "weekly"
          "income" none none) ⟨2024, 1, 10⟩ ⟨2024, 2, 1⟩ "weekly").head? =
        some d →
      d = _first_occurrence_on_or_after ⟨2024, 1, 1⟩ ⟨2024, 1, 10⟩ WEEKLY_DAYS)) :=
  ⟨by decide,
    C4_interval_phase
      (Recurring.RecurringSchedule.mk 1 ⟨2024, 1, 1⟩ 1 none "weekly"
        "income" none none) ⟨2024, 1, 10⟩ ⟨2024, 2, 1⟩
      (by decide) (Or.inl ⟨rfl, rfl⟩)⟩

/-- C3: monthly/yearly occurrences are the start date advanced by the
period offset in months with the day re-clamped from `start_date.day`
each step; in particular the spec's leap-year examples hold. -/
theorem C3_calendar_clamping (s : Recurring.RecurringSchedule) (rs re : Date)
    {nf : String} (hs : s.start_date.Valid) (hrs : rs.Valid)
    (hnf : nf = "monthly" ∨ nf = "yearly") :
    (∀ d ∈ Recurring._generated_dates s rs re nf,
      ∃ n, d = _add_months s.start_date n s.start_date.day ∧
        d.day = min s.start_date.day (monthLength d.year d.month)) ∧
    (Recurring.project_recurring_schedule
        (Recurring.RecurringSchedule.mk 1 ⟨2024, 1, 31⟩ 1 none "monthly"
          "income" none none) ⟨2024, 1, 1⟩ ⟨2024, 3, 31⟩ [] =
      Except.ok
        [Recurring.ProjectedEntry.mk ⟨2024, 1, 31⟩ 1 1 "income" false
          "projected" none,
        Recurring.ProjectedEntry.mk ⟨2024, 2, 29⟩ 1 1 "income" false
          "projected" none,
        Recurring.ProjectedEntry.mk ⟨2024, 3, 31⟩ 1 1 "income" false
          "projected" none]) ∧
    (Recurring.project_recurring_schedule
        (Recurring.RecurringSchedule.mk 1 ⟨2024, 2, 29⟩ 1 none "yearly"
          "income" none none) ⟨2024, 1, 1⟩ ⟨2026, 3, 1⟩ [] =
      Except.ok
        [Recurring.ProjectedEntry.mk ⟨2024, 2, 29⟩ 1 1 "income" false
          "projected" none,
        Recurring.ProjectedEntry.mk ⟨2025, 2, 28⟩ 1 1 "income" false
          "projected" none,
        Recurring.ProjectedEntry.mk ⟨2026, 2, 28⟩ 1 1 "income" false
          "projected" none]) := by
  refine ⟨?_, rfl, rfl⟩
  intro d hd
  rcases hnf with rfl | rfl
  · rw [Recurring._generated_dates_monthly] at hd
    obtain ⟨hfst, hge, hmin⟩ := _first_monthly_on_or_after_spec hs hrs
    rw [hfst] at hd
    obtain ⟨k, rfl⟩ := _occurrence_dates_cal_mem hd
    exact ⟨(_first_monthly_on_or_after s.start_date rs).2 + 1 * k, rfl,
      _add_months_day s.start_date _ s.start_date.day⟩
  · rw [Recurring._generated_dates_yearly] at hd
    obtain ⟨hfst, hge, hmul, hmin⟩ := Recurring._first_yearly_on_or_after_spec hs hrs
    rw [hfst] at hd
    obtain ⟨k, rfl⟩ := _occurrence_dates_cal_mem hd
    exact ⟨(Recurring._first_yearly_on_or_after s.start_date rs).2 + 12 * k, rfl,
      _add_months_day s.start_date _ s.start_date.day⟩

/-- Witness for C3 at the spec's monthly example schedule. -/
theorem C3_calendar_clamping_witness :
    ((Date.mk 2024 1 31).Valid ∧ (Date.mk 2024 1 1).Valid) ∧
    ((∀ d ∈ Recurring._generated_dates
        (Recurring.RecurringSchedule.mk 1 ⟨2024, 1, 31⟩ 1 none "monthly"
          "income" none none) ⟨2024, 1, 1⟩ ⟨2024, 3, 31⟩ "monthly",
      ∃ n, d = _add_months ⟨2024, 1, 31⟩ n 31 ∧
        d.day = min 31 (monthLength d.year d.month)) ∧
      (Recurring.project_recurring_schedule
          (Recurring.RecurringSchedule.mk 1 ⟨2024, 1, 31⟩ 1 none "monthly"
            "income" none none) ⟨2024, 1, 1⟩ ⟨2024, 3, 31⟩ [] =
        Except.ok
          [Recurring.ProjectedEntry.mk ⟨2024, 1, 31⟩ 1 1 "income" false
            "projected" none,
          Recurring.ProjectedEntry.mk ⟨2024, 2, 29⟩ 1 1 "income" false
            "projected" none,
          Recurring.ProjectedEntry.mk ⟨2024, 3, 31⟩ 1 1 "income" false
            "projected" none]) ∧
      (Recurring.project_recurring_schedule
          (Recurring.RecurringSchedule.mk 1 ⟨2024, 2, 29⟩ 1 none "yearly"
            "income" none none) ⟨2024, 1, 1⟩ ⟨2026, 3, 1⟩ [] =
        Except.ok
          [Recurring.ProjectedEntry.mk ⟨2024, 2, 29⟩ 1 1 "income" false
            "projected" none,
          Recurring.ProjectedEntry.mk ⟨2025, 2, 28⟩ 1 1 "income" false
            "projected" none,
          Recurring.ProjectedEntry.mk ⟨2026, 2, 28⟩ 1 1 "income" false
            "projected" none])) :=
  ⟨⟨by decide, by decide⟩,
    C3_calendar_clamping
      (Recurring.RecurringSchedule.mk 1 ⟨2024, 1, 31⟩ 1 none "monthly"
        "income" none none) ⟨2024, 1, 1⟩ ⟨2024, 3, 31⟩
      (by decide) (by decide) (Or.inl rfl)⟩

/-- C5: for calendar frequencies the engine's first occurrence is the
day-clamped candidate at the smallest nonnegative month offset (monthly) or
whole-year offset (yearly) whose clamped candidate reaches `range_start`;
when `start_date ≥ range_start` it is `start_date` itself with offset 0. -/
theorem C5_first_calendar_occurrence (s rs : Date) (hs : s.Valid)
    (hrs : rs.Valid) :
    ((rs ≤ s → _first_monthly_on_or_after s rs = (s, 0)) ∧
      (_first_monthly_on_or_after s rs).1 =
        _add_months s (_first_monthly_on_or_after s rs).2 s.day ∧
      rs ≤ (_first_monthly_on_or_after s rs).1 ∧
      (∀ j < (_first_monthly_on_or_after s rs).2, _add_months s j s.day < rs)) ∧
    ((rs ≤ s → Recurring._first_yearly_on_or_after s rs = (s, 0)) ∧
      (Recurring._first_yearly_on_or_after s rs).1 =
        _add_months s (Recurring._first_yearly_on_or_after s rs).2 s.day ∧
      rs ≤ (Recurring._first_yearly_on_or_after s rs).1 ∧
      (∃ k, (Recurring._first_yearly_on_or_after s rs).2 = 12 * k) ∧
      (∀ j, 12 * j < (Recurring._first_yearly_on_or_after s rs).2 →
        _add_months s (12 * j) s.day < rs)) := by
  obtain ⟨hm1, hm2, hm3⟩ := _first_monthly_on_or_after_spec hs hrs
  obtain ⟨hy1, hy2, hy3, hy4⟩ := Recurring._first_yearly_on_or_after_spec hs hrs
  refine ⟨⟨?_, hm1, hm2, hm3⟩, ⟨?_, hy1, hy2, hy3, hy4⟩⟩
  · intro hle
    unfold _first_monthly_on_or_after
    rw [if_pos hle]
  · intro hle
    unfold Recurring._first_yearly_on_or_after
    rw [if_pos hle]

/-- Witness for C5 at `start = 2023-11-30`, `range_start = 2024-02-10`. -/
theorem C5_first_calendar_occurrence_witness :
    ((Date.mk 2023 11 30).Valid ∧ (Date.mk 2024 2 10).Valid) ∧
    ((((Date.mk 2024 2 10) ≤ (Date.mk 2023 11 30) →
        _first_monthly_on_or_after ⟨2023, 11, 30⟩ ⟨2024, 2, 10⟩ =
          (⟨2023, 11, 30⟩, 0)) ∧
      (_first_monthly_on_or_after ⟨2023, 11, 30⟩ ⟨2024, 2, 10⟩).1 =
        _add_months ⟨2023, 11, 30⟩
          (_first_monthly_on_or_after ⟨2023, 11, 30⟩ ⟨2024, 2, 10⟩).2 30 ∧
      (Date.mk 2024 2 10) ≤
        (_first_monthly_on_or_after ⟨2023, 11, 30⟩ ⟨2024, 2, 10⟩).1 ∧
      (∀ j < (_first_monthly_on_or_after ⟨2023, 11, 30⟩ ⟨2024, 2, 10⟩).2,
        _add_months ⟨2023, 11, 30⟩ j 30 < (Date.mk 2024 2 10))) ∧
    (((Date.mk 2024 2 10) ≤ (Date.mk 2023 11 30) →
        Recurring._first_yearly_on_or_after ⟨2023, 11, 30⟩ ⟨2024, 2, 10⟩ =
          (⟨2023, 11, 30⟩, 0)) ∧
      (Recurring._first_yearly_on_or_after ⟨2023, 11, 30⟩ ⟨2024, 2, 10⟩).1 =
        _add_months ⟨2023, 11, 30⟩
          (Recurring._first_yearly_on_or_after ⟨2023, 11, 30⟩ ⟨2024, 2, 10⟩).2 30 ∧
      (Date.mk 2024 2 10) ≤
        (Recurring._first_yearly_on_or_after ⟨2023, 11, 30⟩ ⟨2024, 2, 10⟩).1 ∧
      (∃ k, (Recurring._first_yearly_on_or_after ⟨2023, 11, 30⟩
          ⟨2024, 2, 10⟩).2 = 12 * k) ∧
      (∀ j, 12 * j <
          (Recurring._first_yearly_on_or_after ⟨2023, 11, 30⟩ ⟨2024, 2, 10⟩).2 →
        _add_months ⟨2023, 11, 30⟩ (12 * j) 30 < (Date.mk 2024 2 10)))) :=
  ⟨⟨by decide, by decide⟩,
    C5_first_calendar_occurrence ⟨2023, 11, 30⟩ ⟨2024, 2, 10⟩
      (by decide) (by decide)⟩

theorem Recurring._validate_frequency_error_iff (f : String) :
    Recurring._validate_frequency f = Except.error ProjError.InvalidFrequency ↔
      ¬ ((if _normalize_frequency f == "byweekly" then "biweekly"
            else _normalize_frequency f) = "weekly" ∨
        (if _normalize_frequency f == "byweekly" then "biweekly"
            else _normalize_frequency f) = "biweekly" ∨
        (if _normalize_frequency f == "byweekly" then "biweekly"
            else _normalize_frequency f) = "monthly" ∨
        (if _normalize_frequency f == "byweekly" then "biweekly"
            else _normalize_frequency f) = "yearly") := by
  unfold Recurring._validate_frequency
  by_cases hc : Recurring.SUPPORTED_FREQUENCIES.contains
      (if _normalize_frequency f == "byweekly" then "biweekly"
        else _normalize_frequency f) = true
  · rw [if_pos hc]
    rw [Recurring.mem_SUPPORTED_FREQUENCIES_iff] at hc
    constructor
    · intro h
      exact absurd h (by simp)
    · intro h
      exact absurd hc h
  · rw [if_neg hc]
    rw [Recurring.mem_SUPPORTED_FREQUENCIES_iff] at hc
    constructor
    · intro _
      exact hc
    · intro _
      rfl

theorem Recurring._validate_kind_error_iff (k : String) :
    Recurring._validate_kind k = Except.error ProjError.InvalidKind ↔
      ¬ (Recurring._normalize_kind k = "income" ∨
        Recurring._normalize_kind k = "expense" ∨
        Recurring._normalize_kind k = "investment") := by
  unfold Recurring._validate_kind
  by_cases hc : Recurring.SUPPORTED_KINDS.contains
      (Recurring._normalize_kind k) = true
  · rw [if_pos hc]
    rw [Recurring.mem_SUPPORTED_KINDS_iff] at hc
    constructor
    · intro h
      exact absurd h (by simp)
    · intro h
      exact absurd hc h
  · rw [if_neg hc]
    rw [Recurring.mem_SUPPORTED_KINDS_iff] at hc
    constructor
    · intro _
      exact hc
    · intro _
      rfl

/-- C6: `project_recurring_schedule` raises `InvalidRange` iff
`range_start > range_end`; else `InvalidAmount` iff `amount ≤ 0`; else
`InvalidFrequency` iff the frequency does not normalize into the supported
set (`byweekly` accepted for `biweekly`); else `InvalidKind` iff the kind
does not normalize into the supported set; and it returns a (complete)
list exactly when none of the four conditions holds. -/
theorem C6_validation_errors (s : Recurring.RecurringSchedule) (rs re : Date)
    (txns : List Recurring.ActualTransaction) :
    (Recurring.project_recurring_schedule s rs re txns =
        Except.error ProjError.InvalidRange ↔ re < rs) ∧
    (Recurring.project_recurring_schedule s rs re txns =
        Except.error ProjError.InvalidAmount ↔
      (¬ re < rs ∧ s.amount ≤ 0)) ∧
    (Recurring.project_recurring_schedule s rs re txns =
        Except.error ProjError.InvalidFrequency ↔
      (¬ re < rs ∧ ¬ s.amount ≤ 0 ∧
        ¬ ((if _normalize_frequency s.frequency == "byweekly" then "biweekly"
              else _normalize_frequency s.frequency) = "weekly" ∨
          (if _normalize_frequency s.frequency == "byweekly" then "biweekly"
              else _normalize_frequency s.frequency) = "biweekly" ∨
          (if _normalize_frequency s.frequency == "byweekly" then "biweekly"
              else _normalize_frequency s.frequency) = "monthly" ∨
          (if _normalize_frequency s.frequency == "byweekly" then "biweekly"
              else _normalize_frequency s.frequency) = "yearly"))) ∧
    (Recurring.project_recurring_schedule s rs re txns =
        Except.error ProjError.InvalidKind ↔
      (¬ re < rs ∧ ¬ s.amount ≤ 0 ∧
        ((if _normalize_frequency s.frequency == "byweekly" then "biweekly"
              else _normalize_frequency s.frequency) = "weekly" ∨
          (if _normalize_frequency s.frequency == "byweekly" then "biweekly"
              else _normalize_frequency s.frequency) = "biweekly" ∨
          (if _normalize_frequency s.frequency == "byweekly" then "biweekly"
              else _normalize_frequency s.frequency) = "monthly" ∨
          (if _normalize_frequency s.frequency == "byweekly" then "biweekly"
              else _normalize_frequency s.frequency) = "yearly") ∧
        ¬ (Recurring._normalize_kind s.kind = "income" ∨
          Recurring._normalize_kind s.kind = "expense" ∨
          Recurring._normalize_kind s.kind = "investment"))) ∧
    ((∃ l, Recurring.project_recurring_schedule s rs re txns = Except.ok l) ↔
      (¬ re < rs ∧ ¬ s.amount ≤ 0 ∧
        ((if _normalize_frequency s.frequency == "byweekly" then "biweekly"
              else _normalize_frequency s.frequency) = "weekly" ∨
          (if _normalize_frequency s.frequency == "byweekly" then "biweekly"
              else _normalize_frequency s.frequency) = "biweekly" ∨
          (if _normalize_frequency s.frequency == "byweekly" then "biweekly"
              else _normalize_frequency s.frequency) = "monthly" ∨
          (if _normalize_frequency s.frequency == "byweekly" then "biweekly"
              else _normalize_frequency s.frequency) = "yearly") ∧
        (Recurring._normalize_kind s.kind = "income" ∨
          Recurring._normalize_kind s.kind = "expense" ∨
          Recurring._normalize_kind s.kind = "investment"))) := by
  by_cases hR : re < rs
  · have hres : Recurring.project_recurring_schedule s rs re txns =
        Except.error ProjError.InvalidRange := by
      unfold Recurring.project_recurring_schedule Recurring._project_schedule
      rw [if_pos ⟨rfl, hR⟩]
    rw [hres]
    exact ⟨iff_of_true rfl hR,
      iff_of_false (by simp) (fun h => h.1 hR),
      iff_of_false (by simp) (fun h => h.1 hR),
      iff_of_false (by simp) (fun h => h.1 hR),
      iff_of_false (by simp) (fun h => h.1 hR)⟩
  · by_cases hA : s.amount ≤ 0
    · have hres : Recurring.project_recurring_schedule s rs re txns =
          Except.error ProjError.InvalidAmount := by
        unfold Recurring.project_recurring_schedule Recurring._project_schedule
        rw [if_neg (fun h => hR h.2), if_pos hA]
      rw [hres]
      exact ⟨iff_of_false (by simp) hR,
        iff_of_true rfl ⟨hR, hA⟩,
        iff_of_false (by simp) (fun h => h.2.1 hA),
        iff_of_false (by simp) (fun h => h.2.1 hA),
        iff_of_false (by simp) (fun h => h.2.1 hA)⟩
    · cases hf : Recurring._validate_frequency s.frequency with
      | error e =>
        have he := Recurring._validate_frequency_error_elim hf
        subst he
        have hFR := (Recurring._validate_frequency_error_iff s.frequency).mp hf
        have hres : Recurring.project_recurring_schedule s rs re txns =
            Except.error ProjError.InvalidFrequency := by
          unfold Recurring.project_recurring_schedule Recurring._project_schedule
          rw [if_neg (fun h => hR h.2), if_neg hA, hf]
        rw [hres]
        exact ⟨iff_of_false (by simp) hR,
          iff_of_false (by simp) (fun h => hA h.2),
          iff_of_true rfl ⟨hR, hA, hFR⟩,
          iff_of_false (by simp) (fun h => hFR h.2.2.1),
          iff_of_false (by simp) (fun h => hFR h.2.2.1)⟩
      | ok nf =>
        obtain ⟨hN, hnf⟩ := (Recurring._validate_frequency_ok_iff
          s.frequency nf).mp hf
        have hFR : ((if _normalize_frequency s.frequency == "byweekly" then
              "biweekly" else _normalize_frequency s.frequency) = "weekly" ∨
            (if _normalize_frequency s.frequency == "byweekly" then "biweekly"
              else _normalize_frequency s.frequency) = "biweekly" ∨
            (if _normalize_frequency s.frequency == "byweekly" then "biweekly"
              else _normalize_frequency s.frequency) = "monthly" ∨
            (if _normalize_frequency s.frequency == "byweekly" then "biweekly"
              else _normalize_frequency s.frequency) = "yearly") := by
          rw [hN]
          exact hnf
        cases hk : Recurring._validate_kind s.kind with
        | error e =>
          have he := Recurring._validate_kind_error_elim hk
          subst he
          have hKD := (Recurring._validate_kind_error_iff s.kind).mp hk
          have hres : Recurring.project_recurring_schedule s rs re txns =
              Except.error ProjError.InvalidKind := by
            unfold Recurring.project_recurring_schedule
              Recurring._project_schedule
            rw [if_neg (fun h => hR h.2), if_neg hA, hf, hk]
          rw [hres]
          exact ⟨iff_of_false (by simp) hR,
            iff_of_false (by simp) (fun h => hA h.2),
            iff_of_false (by simp) (fun h => h.2.2 hFR),
            iff_of_true rfl ⟨hR, hA, hFR, hKD⟩,
            iff_of_false (by simp) (fun h => hKD h.2.2.2)⟩
        | ok nk =>
          obtain ⟨hM, hnk⟩ := (Recurring._validate_kind_ok_iff s.kind nk).mp hk
          have hKD : (Recurring._normalize_kind s.kind = "income" ∨
              Recurring._normalize_kind s.kind = "expense" ∨
              Recurring._normalize_kind s.kind = "investment") := by
            rw [hM]
            exact hnk
          have hres : Recurring.project_recurring_schedule s rs re txns =
              Except.ok (Recurring._generate s rs re
                (Recurring._excluded_dates_for_schedule s nk
                  (Recurring._index_existing_transactions txns)) nf nk) := by
            unfold Recurring.project_recurring_schedule
            exact Recurring._project_schedule_ok_intro s rs re _ true
              (fun h => hR h.2) hA hf hk
          rw [hres]
          exact ⟨iff_of_false (by simp) hR,
            iff_of_false (by simp) (fun h => hA h.2),
            iff_of_false (by simp) (fun h => h.2.2 hFR),
            iff_of_false (by simp) (fun h => h.2.2.2 hKD),
            iff_of_true ⟨_, rfl⟩ ⟨hR, hA, hFR, hKD⟩⟩

/-- The `check_range` flag is irrelevant once the window is known valid. -/
theorem Recurring._project_schedule_check_range_irrelevant
    (s : Recurring.RecurringSchedule) {rs re : Date}
    (idx : Int → String → Date → Bool) (hR : ¬ re < rs) (cr cr' : Bool) :
    Recurring._project_schedule s rs re idx cr =
      Recurring._project_schedule s rs re idx cr' := by
  unfold Recurring._project_schedule
  rw [if_neg (show ¬ (cr = true ∧ re < rs) from fun h => hR h.2),
    if_neg (show ¬ (cr' = true ∧ re < rs) from fun h => hR h.2)]

theorem Recurring._project_schedules_loop_eq_each {rs re : Date}
    {txns : List Recurring.ActualTransaction} (hR : ¬ re < rs) :
    ∀ ss : List Recurring.RecurringSchedule,
      Recurring._project_schedules_loop rs re
          (Recurring._index_existing_transactions txns) ss =
        Recurring.projectEachThenConcat ss rs re txns := by
  intro ss
  induction ss with
  | nil => rfl
  | cons s rest ih =>
    unfold Recurring._project_schedules_loop Recurring.projectEachThenConcat
    have hone : Recurring.project_recurring_schedule s rs re txns =
        Recurring._project_schedule s rs re
          (Recurring._index_existing_transactions txns) false := by
      unfold Recurring.project_recurring_schedule
      exact Recurring._project_schedule_check_range_irrelevant s
        (Recurring._index_existing_transactions txns) hR true false
    rw [hone, ih]

/-- C7 counterexample: with an empty schedule list and
`range_start > range_end`, the batch operation raises `InvalidRange`
while the concatenation of zero single-schedule calls is the empty
list. -/
theorem C7_counterexample :
    Recurring.project_recurring_schedules [] ⟨2024, 1, 2⟩ ⟨2024, 1, 1⟩ [] =
        Except.error ProjError.InvalidRange ∧
      Recurring.projectEachThenConcat [] ⟨2024, 1, 2⟩ ⟨2024, 1, 1⟩ [] =
        Except.ok [] :=
  ⟨rfl, rfl⟩

/-- C7 (amended): for every NONEMPTY list of schedules, every window and
every snapshot, the batch operation returns exactly the concatenation of
the single-schedule results in supplied order, raising exactly where the
first single-schedule call raises. -/
theorem C7_batch_refinement (ss : List Recurring.RecurringSchedule)
    (rs re : Date) (txns : List Recurring.ActualTransaction)
    (hne : ss ≠ []) :
    Recurring.project_recurring_schedules ss rs re txns =
      Recurring.projectEachThenConcat ss rs re txns := by
  by_cases hR : re < rs
  · have hb : Recurring.project_recurring_schedules ss rs re txns =
        Except.error ProjError.InvalidRange := by
      unfold Recurring.project_recurring_schedules
      rw [if_pos hR]
    cases ss with
    | nil => exact absurd rfl hne
    | cons s rest =>
      have hone : Recurring.project_recurring_schedule s rs re txns =
          Except.error ProjError.InvalidRange := by
        unfold Recurring.project_recurring_schedule
          Recurring._project_schedule
        rw [if_pos ⟨rfl, hR⟩]
      rw [hb]
      unfold Recurring.projectEachThenConcat
      rw [hone]
  · unfold Recurring.project_recurring_schedules
    rw [if_neg hR]
    exact Recurring._project_schedules_loop_eq_each hR ss

/-- Witness for C7 at a two-schedule batch. -/
theorem C7_batch_refinement_witness :
    ([Recurring.RecurringSchedule.mk 1 ⟨2024, 1, 5⟩ 1 none "biweekly"
        "income" none none,
      Recurring.RecurringSchedule.mk 2 ⟨2024, 1, 1⟩ 2 none "monthly"
        "expense" none none] ≠ []) ∧
    Recurring.project_recurring_schedules
        [Recurring.RecurringSchedule.mk 1 ⟨2024, 1, 5⟩ 1 none "biweekly"
          "income" none none,
        Recurring.RecurringSchedule.mk 2 ⟨2024, 1, 1⟩ 2 none "monthly"
          "expense" none none] ⟨2024, 1, 1⟩ ⟨2024, 2, 15⟩ [] =
      Recurring.projectEachThenConcat
        [Recurring.RecurringSchedule.mk 1 ⟨2024, 1, 5⟩ 1 none "biweekly"
          "income" none none,
        Recurring.RecurringSchedule.mk 2 ⟨2024, 1, 1⟩ 2 none "monthly"
          "expense" none none] ⟨2024, 1, 1⟩ ⟨2024, 2, 15⟩ [] :=
  ⟨by simp,
    C7_batch_refinement
      [Recurring.RecurringSchedule.mk 1 ⟨2024, 1, 5⟩ 1 none "biweekly"
        "income" none none,
      Recurring.RecurringSchedule.mk 2 ⟨2024, 1, 1⟩ 2 none "monthly"
        "expense" none none] ⟨2024, 1, 1⟩ ⟨2024, 2, 15⟩ [] (by simp)⟩

/-- One extra unit of fuel changes nothing once the fuel covers the
remaining days of the window (interval stepping). -/
theorem Recurring._projection_loop_interval_step
    (schedule : Recurring.RecurringSchedule) {re : Date}
    (excl : Date → Bool) (tt : String) (inv : Bool) (minc : Nat) {itv : Nat}
    (hitv : 0 < itv) (hre : re.Valid) :
    ∀ f cur off, cur.Valid → re.toRD + 1 - cur.toRD ≤ f →
      Recurring._projection_loop schedule re excl tt inv false minc itv
          (f + 1) cur off =
        Recurring._projection_loop schedule re excl tt inv false minc itv
          f cur off := by
  intro f
  induction f with
  | zero =>
    intro cur off hv hB
    have hgt : ¬ cur ≤ re := by
      intro hle
      have := toRD_le_of_le hv hre hle
      omega
    show (if cur ≤ re then _ else _) = _
    rw [if_neg hgt]
    rfl
  | succ f ih =>
    intro cur off hv hB
    show (if cur ≤ re then _ else _) = (if cur ≤ re then _ else _)
    by_cases hle : cur ≤ re
    · rw [if_pos hle, if_pos hle]
      have hnext : (cur.addDays itv).Valid := addDays_valid hv itv
      have hrd : (cur.addDays itv).toRD = cur.toRD + itv := toRD_addDays hv itv
      have := ih (cur.addDays itv) off hnext (by omega)
      congr 1
    · rw [if_neg hle, if_neg hle]

/-- One extra unit of fuel changes nothing once the fuel covers the
remaining days of the window (calendar stepping). -/
theorem Recurring._projection_loop_cal_step
    (schedule : Recurring.RecurringSchedule) {re : Date}
    (excl : Date → Bool) (tt : String) (inv : Bool) {minc : Nat} (itv : Nat)
    (hminc : 0 < minc) (hre : re.Valid) (hs : schedule.start_date.Valid) :
    ∀ f off,
      re.toRD + 1 -
          (_add_months schedule.start_date off schedule.start_date.day).toRD ≤ f →
      Recurring._projection_loop schedule re excl tt inv true minc itv (f + 1)
          (_add_months schedule.start_date off schedule.start_date.day) off =
        Recurring._projection_loop schedule re excl tt inv true minc itv f
          (_add_months schedule.start_date off schedule.start_date.day) off := by
  intro f
  induction f with
  | zero =>
    intro off hB
    have hv := _add_months_valid hs.1 hs.2.2.2.1 off
      (a := schedule.start_date.day)
    have hgt : ¬ _add_months schedule.start_date off schedule.start_date.day ≤ re := by
      intro hle
      have := toRD_le_of_le hv hre hle
      omega
    show (if _ ≤ re then _ else _) = _
    rw [if_neg hgt]
    rfl
  | succ f ih =>
    intro off hB
    show (if _ ≤ re then _ else _) = (if _ ≤ re then _ else _)
    by_cases hle : _add_months schedule.start_date off schedule.start_date.day ≤ re
    · rw [if_pos hle, if_pos hle]
      have hv := _add_months_valid hs.1 hs.2.2.2.1 off
        (a := schedule.start_date.day)
      have hv2 := _add_months_valid hs.1 hs.2.2.2.1 (off + minc)
        (a := schedule.start_date.day)
      have hlt : _add_months schedule.start_date off schedule.start_date.day <
          _add_months schedule.start_date (off + minc) schedule.start_date.day :=
        _add_months_strictMono hs.2.1 schedule.start_date.day (by omega)
      have hrd := toRD_lt_of_lt hv hv2 hlt
      have := ih (off + minc) (by omega)
      congr 1
    · rw [if_neg hle, if_neg hle]

/-- Any fuel at least the engine's bound computes the same list as the
bound itself (interval stepping). -/
theorem Recurring._projection_loop_interval_fuel_irrelevant
    (schedule : Recurring.RecurringSchedule) {re : Date}
    (excl : Date → Bool) (tt : String) (inv : Bool) (minc : Nat) {itv : Nat}
    (hitv : 0 < itv) (hre : re.Valid) :
    ∀ f cur off, cur.Valid → re.toRD + 1 - cur.toRD ≤ f →
      Recurring._projection_loop schedule re excl tt inv false minc itv
          f cur off =
        Recurring._projection_loop schedule re excl tt inv false minc itv
          (re.toRD + 1 - cur.toRD) cur off := by
  intro f
  induction f with
  | zero =>
    intro cur off hv hB
    have h0 : re.toRD + 1 - cur.toRD = 0 := by omega
    rw [h0]
  | succ f ih =>
    intro cur off hv hB
    rcases Nat.lt_or_ge f (re.toRD + 1 - cur.toRD) with hlt | hge
    · have heq : re.toRD + 1 - cur.toRD = f + 1 := by omega
      rw [heq]
    · rw [Recurring._projection_loop_interval_step schedule excl tt inv minc
        hitv hre f cur off hv hge]
      exact ih cur off hv hge

/-- Any fuel at least the engine's bound computes the same list as the
bound itself (calendar stepping). -/
theorem Recurring._projection_loop_cal_fuel_irrelevant
    (schedule : Recurring.RecurringSchedule) {re : Date}
    (excl : Date → Bool) (tt : String) (inv : Bool) {minc : Nat} (itv : Nat)
    (hminc : 0 < minc) (hre : re.Valid) (hs : schedule.start_date.Valid) :
    ∀ f off,
      re.toRD + 1 -
          (_add_months schedule.start_date off schedule.start_date.day).toRD ≤ f →
      Recurring._projection_loop schedule re excl tt inv true minc itv f
          (_add_months schedule.start_date off schedule.start_date.day) off =
        Recurring._projection_loop schedule re excl tt inv true minc itv
          (re.toRD + 1 -
            (_add_months schedule.start_date off schedule.start_date.day).toRD)
          (_add_months schedule.start_date off schedule.start_date.day) off := by
  intro f
  induction f with
  | zero =>
    intro off hB
    have h0 : re.toRD + 1 -
        (_add_months schedule.start_date off schedule.start_date.day).toRD = 0 := by
      omega
    rw [h0]
  | succ f ih =>
    intro off hB
    rcases Nat.lt_or_ge f (re.toRD + 1 -
        (_add_months schedule.start_date off schedule.start_date.day).toRD) with
      hlt | hge
    · have heq : re.toRD + 1 -
          (_add_months schedule.start_date off schedule.start_date.day).toRD =
            f + 1 := by omega
      rw [heq]
    · rw [Recurring._projection_loop_cal_step schedule excl tt inv itv
        hminc hre hs f off hge]
      exact ih off hge

/-- C9: every loop step strictly advances the candidate date (by the
interval for weekly/biweekly, by advancing the month offset for
monthly/yearly), so the fuel bound the engine supplies is enough: any
larger fuel computes the same list, and projection is a total function. -/
theorem C9_termination (s : Recurring.RecurringSchedule) (rs re : Date)
    (txns : List Recurring.ActualTransaction)
    (hs : s.start_date.Valid) (hre : re.Valid) :
    (∀ d : Date, d.Valid → ∀ itv : Nat, 0 < itv → d < d.addDays itv) ∧
    (∀ off minc : Nat, 0 < minc →
      _add_months s.start_date off s.start_date.day <
        _add_months s.start_date (off + minc) s.start_date.day) ∧
    (∀ (excl : Date → Bool) (tt : String) (inv : Bool) (minc itv : Nat),
      0 < itv → ∀ fuel cur off, cur.Valid → re.toRD + 1 - cur.toRD ≤ fuel →
      Recurring._projection_loop s re excl tt inv false minc itv fuel cur off =
        Recurring._projection_loop s re excl tt inv false minc itv
          (re.toRD + 1 - cur.toRD) cur off) ∧
    (∀ (excl : Date → Bool) (tt : String) (inv : Bool) (minc itv : Nat),
      0 < minc → ∀ fuel off,
      re.toRD + 1 -
          (_add_months s.start_date off s.start_date.day).toRD ≤ fuel →
      Recurring._projection_loop s re excl tt inv true minc itv fuel
          (_add_months s.start_date off s.start_date.day) off =
        Recurring._projection_loop s re excl tt inv true minc itv
          (re.toRD + 1 -
            (_add_months s.start_date off s.start_date.day).toRD)
          (_add_months s.start_date off s.start_date.day) off) ∧
    ((∃ l, Recurring.project_recurring_schedule s rs re txns = Except.ok l) ∨
      (∃ e, Recurring.project_recurring_schedule s rs re txns =
        Except.error e)) := by
  refine ⟨?_, ?_, ?_, ?_, ?_⟩
  · intro d hv itv hitv
    apply lt_of_toRD_lt hv (addDays_valid hv itv)
    rw [toRD_addDays hv]
    omega
  · intro off minc hminc
    exact _add_months_strictMono hs.2.1 s.start_date.day (by omega)
  · intro excl tt inv minc itv hitv fuel cur off hv hB
    exact Recurring._projection_loop_interval_fuel_irrelevant s excl tt inv
      minc hitv hre fuel cur off hv hB
  · intro excl tt inv minc itv hminc fuel off hB
    exact Recurring._projection_loop_cal_fuel_irrelevant s excl tt inv
      itv hminc hre hs fuel off hB
  · cases h : Recurring.project_recurring_schedule s rs re txns with
    | error e => exact Or.inr ⟨e, rfl⟩
    | ok l => exact Or.inl ⟨l, rfl⟩

/-- Witness for C9 at a concrete schedule and window. -/
theorem C9_termination_witness :
    ((Date.mk 2024 1 5).Valid ∧ (Date.mk 2024 2 15).Valid) ∧
    ((∀ d : Date, d.Valid → ∀ itv : Nat, 0 < itv → d < d.addDays itv) ∧
    (∀ off minc : Nat, 0 < minc →
      _add_months ⟨2024, 1, 5⟩ off 5 <
        _add_months ⟨2024, 1, 5⟩ (off + minc) 5) ∧
    (∀ (excl : Date → Bool) (tt : String) (inv : Bool) (minc itv : Nat),
      0 < itv → ∀ fuel cur off, cur.Valid →
      (Date.mk 2024 2 15).toRD + 1 - cur.toRD ≤ fuel →
      Recurring._projection_loop
          (Recurring.RecurringSchedule.mk 1 ⟨2024, 1, 5⟩ 1 none "biweekly"
            "income" none none) ⟨2024, 2, 15⟩ excl tt inv false minc itv
          fuel cur off =
        Recurring._projection_loop
          (Recurring.RecurringSchedule.mk 1 ⟨2024, 1, 5⟩ 1 none "biweekly"
            "income" none none) ⟨2024, 2, 15⟩ excl tt inv false minc itv
          ((Date.mk 2024 2 15).toRD + 1 - cur.toRD) cur off) ∧
    (∀ (excl : Date → Bool) (tt : String) (inv : Bool) (minc itv : Nat),
      0 < minc → ∀ fuel off,
      (Date.mk 2024 2 15).toRD + 1 -
          (_add_months ⟨2024, 1, 5⟩ off 5).toRD ≤ fuel →
      Recurring._projection_loop
          (Recurring.RecurringSchedule.mk 1 ⟨2024, 1, 5⟩ 1 none "biweekly"
            "income" none none) ⟨2024, 2, 15⟩ excl tt inv true minc itv fuel
          (_add_months ⟨2024, 1, 5⟩ off 5) off =
        Recurring._projection_loop
          (Recurring.RecurringSchedule.mk 1 ⟨2024, 1, 5⟩ 1 none "biweekly"
            "income" none none) ⟨2024, 2, 15⟩ excl tt inv true minc itv
          ((Date.mk 2024 2 15).toRD + 1 -
            (_add_months ⟨2024, 1, 5⟩ off 5).toRD)
          (_add_months ⟨2024, 1, 5⟩ off 5) off) ∧
    ((∃ l, Recurring.project_recurring_schedule
        (Recurring.RecurringSchedule.mk 1 ⟨2024, 1, 5⟩ 1 none "biweekly"
          "income" none none) ⟨2024, 1, 1⟩ ⟨2024, 2, 15⟩ [] = Except.ok l) ∨
      (∃ e, Recurring.project_recurring_schedule
        (Recurring.RecurringSchedule.mk 1 ⟨2024, 1, 5⟩ 1 none "biweekly"
          "income" none none) ⟨2024, 1, 1⟩ ⟨2024, 2, 15⟩ [] =
        Except.error e))) :=
  ⟨⟨by decide, by decide⟩,
    C9_termination
      (Recurring.RecurringSchedule.mk 1 ⟨2024, 1, 5⟩ 1 none "biweekly"
        "income" none none) ⟨2024, 1, 1⟩ ⟨2024, 2, 15⟩ []
      (by decide) (by decide)⟩

/-- C10: the output depends on the snapshot only through the set of dates
of transactions with the schedule's account and the kind's matching
actual-type; snapshots agreeing on that set give identical results. -/
theorem C10_snapshot_abstraction (s : Recurring.RecurringSchedule)
    (rs re : Date) (t1 t2 : List Recurring.ActualTransaction)
    (hagree : ∀ d : Date,
      (∃ t ∈ t1, t.account_id = s.account_id ∧
        Recurring._normalize_kind t.type = Recurring._normalize_kind s.kind ∧
        t.date = d) ↔
      (∃ t ∈ t2, t.account_id = s.account_id ∧
        Recurring._normalize_kind t.type = Recurring._normalize_kind s.kind ∧
        t.date = d)) :
    Recurring.project_recurring_schedule s rs re t1 =
      Recurring.project_recurring_schedule s rs re t2 := by
  unfold Recurring.project_recurring_schedule Recurring._project_schedule
  by_cases hR : (true = true ∧ re < rs)
  · rw [if_pos hR, if_pos hR]
  · rw [if_neg hR, if_neg hR]
    by_cases hA : s.amount ≤ 0
    · rw [if_pos hA, if_pos hA]
    · rw [if_neg hA, if_neg hA]
      cases hf : Recurring._validate_frequency s.frequency with
      | error e => rfl
      | ok nf =>
        cases hk : Recurring._validate_kind s.kind with
        | error e => rfl
        | ok nk =>
          show Except.ok (Recurring._generate s rs re
              (Recurring._excluded_dates_for_schedule s nk
                (Recurring._index_existing_transactions t1)) nf nk) =
            Except.ok (Recurring._generate s rs re
              (Recurring._excluded_dates_for_schedule s nk
                (Recurring._index_existing_transactions t2)) nf nk)
          obtain ⟨hM, hnk⟩ := (Recurring._validate_kind_ok_iff s.kind nk).mp hk
          have hexcl : Recurring._excluded_dates_for_schedule s nk
              (Recurring._index_existing_transactions t1) =
            Recurring._excluded_dates_for_schedule s nk
              (Recurring._index_existing_transactions t2) := by
            funext d
            have h1 := @Recurring._excluded_iff s nk hnk t1 d
            have h2 := @Recurring._excluded_iff s nk hnk t2 d
            have hag := hagree d
            rw [hM] at hag
            cases hb1 : Recurring._excluded_dates_for_schedule s nk
              (Recurring._index_existing_transactions t1) d with
            | false =>
              cases hb2 : Recurring._excluded_dates_for_schedule s nk
                (Recurring._index_existing_transactions t2) d with
              | false => rfl
              | true =>
                rw [hb1] at h1
                rw [hb2] at h2
                exact absurd (h1.mpr (hag.mpr (h2.mp rfl))) (by simp)
            | true =>
              cases hb2 : Recurring._excluded_dates_for_schedule s nk
                (Recurring._index_existing_transactions t2) d with
              | false =>
                rw [hb1] at h1
                rw [hb2] at h2
                exact absurd (h2.mpr (hag.mp (h1.mp rfl))) (by simp)
              | true => rfl
          rw [hexcl]

/-- Witness for C10: two snapshots listing the same transactions in a
different order. -/
theorem C10_snapshot_abstraction_witness :
    (∀ d : Date,
      (∃ t ∈ [Recurring.ActualTransaction.mk ⟨2024, 1, 19⟩ 1 "income",
          Recurring.ActualTransaction.mk ⟨2024, 1, 5⟩ 2 "expense"],
        t.account_id = 1 ∧
        Recurring._normalize_kind t.type = Recurring._normalize_kind "income" ∧
        t.date = d) ↔
      (∃ t ∈ [Recurring.ActualTransaction.mk ⟨2024, 1, 5⟩ 2 "expense",
          Recurring.ActualTransaction.mk ⟨2024, 1, 19⟩ 1 "income"],
        t.account_id = 1 ∧
        Recurring._normalize_kind t.type = Recurring._normalize_kind "income" ∧
        t.date = d)) ∧
    Recurring.project_recurring_schedule
        (Recurring.RecurringSchedule.mk 1 ⟨2024, 1, 5⟩ 1 none "biweekly"
          "income" none none) ⟨2024, 1, 1⟩ ⟨2024, 2, 15⟩
        [Recurring.ActualTransaction.mk ⟨2024, 1, 19⟩ 1 "income",
        Recurring.ActualTransaction.mk ⟨2024, 1, 5⟩ 2 "expense"] =
      Recurring.project_recurring_schedule
        (Recurring.RecurringSchedule.mk 1 ⟨2024, 1, 5⟩ 1 none "biweekly"
          "income" none none) ⟨2024, 1, 1⟩ ⟨2024, 2, 15⟩
        [Recurring.ActualTransaction.mk ⟨2024, 1, 5⟩ 2 "expense",
        Recurring.ActualTransaction.mk ⟨2024, 1, 19⟩ 1 "income"] :=
  ⟨fun d => by
      constructor
      · rintro ⟨t, ht, h⟩
        refine ⟨t, ?_, h⟩
        simp only [List.mem_cons, List.not_mem_nil, or_false] at ht ⊢
        tauto
      · rintro ⟨t, ht, h⟩
        refine ⟨t, ?_, h⟩
        simp only [List.mem_cons, List.not_mem_nil, or_false] at ht ⊢
        tauto,
    C10_snapshot_abstraction
      (Recurring.RecurringSchedule.mk 1 ⟨2024, 1, 5⟩ 1 none "biweekly"
        "income" none none) ⟨2024, 1, 1⟩ ⟨2024, 2, 15⟩
      [Recurring.ActualTransaction.mk ⟨2024, 1, 19⟩ 1 "income",
      Recurring.ActualTransaction.mk ⟨2024, 1, 5⟩ 2 "expense"]
      [Recurring.ActualTransaction.mk ⟨2024, 1, 5⟩ 2 "expense",
      Recurring.ActualTransaction.mk ⟨2024, 1, 19⟩ 1 "income"]
      (fun d => by
        constructor
        · rintro ⟨t, ht, h⟩
          refine ⟨t, ?_, h⟩
          simp only [List.mem_cons, List.not_mem_nil, or_false] at ht ⊢
          tauto
        · rintro ⟨t, ht, h⟩
          refine ⟨t, ?_, h⟩
          simp only [List.mem_cons, List.not_mem_nil, or_false] at ht ⊢
          tauto)⟩

theorem bool_eq_of_iff {a b : Bool} (h : (a = true) ↔ (b = true)) : a = b := by
  cases a <;> cases b <;> simp_all

/-- Membership in the older engine's supported-frequency set. -/
theorem Income.mem_income_SUPPORTED_FREQUENCIES_iff (x : String) :
    Income.SUPPORTED_FREQUENCIES.contains x = true ↔
      (x = "weekly" ∨ x = "biweekly" ∨ x = "monthly") := by
  simp [Income.SUPPORTED_FREQUENCIES]

theorem Income._income_validate_frequency_ok_iff (f nf : String) :
    Income._validate_frequency f = Except.ok nf ↔
      ((if _normalize_frequency f == "byweekly" then "biweekly"
          else _normalize_frequency f) = nf ∧
        (nf = "weekly" ∨ nf = "biweekly" ∨ nf = "monthly")) := by
  unfold Income._validate_frequency
  by_cases hc : Income.SUPPORTED_FREQUENCIES.contains
      (if _normalize_frequency f == "byweekly" then "biweekly"
        else _normalize_frequency f) = true
  · rw [if_pos hc]
    rw [Income.mem_income_SUPPORTED_FREQUENCIES_iff] at hc
    constructor
    · intro h
      have he := Except.ok.inj h
      exact ⟨he, he ▸ hc⟩
    · intro ⟨h1, h2⟩
      rw [h1]
  · rw [if_neg hc]
    rw [Income.mem_income_SUPPORTED_FREQUENCIES_iff] at hc
    constructor
    · intro h
      exact absurd h (by simp)
    · intro ⟨h1, h2⟩
      rw [← h1] at h2
      exact absurd h2 hc

theorem Income._income_generate_weekly (ps : Income.PaySchedule) (rs re : Date)
    (ex : Date → Bool) :
    Income._generate ps rs re ex "weekly" =
      Income._income_loop ps re ex false WEEKLY_DAYS
        (re.toRD + 1 -
          (_first_occurrence_on_or_after ps.start_date rs WEEKLY_DAYS).toRD)
        (_first_occurrence_on_or_after ps.start_date rs WEEKLY_DAYS) 0 := rfl

theorem Income._income_generate_biweekly (ps : Income.PaySchedule) (rs re : Date)
    (ex : Date → Bool) :
    Income._generate ps rs re ex "biweekly" =
      Income._income_loop ps re ex false BIWEEKLY_DAYS
        (re.toRD + 1 -
          (_first_occurrence_on_or_after ps.start_date rs BIWEEKLY_DAYS).toRD)
        (_first_occurrence_on_or_after ps.start_date rs BIWEEKLY_DAYS) 0 := rfl

theorem Income._income_generate_monthly (ps : Income.PaySchedule) (rs re : Date)
    (ex : Date → Bool) :
    Income._generate ps rs re ex "monthly" =
      Income._income_loop ps re ex true 0
        (re.toRD + 1 - (_first_monthly_on_or_after ps.start_date rs).1.toRD)
        (_first_monthly_on_or_after ps.start_date rs).1
        (_first_monthly_on_or_after ps.start_date rs).2 := rfl

/-- The two engines' interval loops emit the same dates, amounts and
accounts when driven identically with extensionally equal exclusion
sets. -/
theorem Income._income_loop_map_interval (ps : Income.PaySchedule) {re : Date}
    (ex1 ex2 : Date → Bool) (hex : ∀ d, ex1 d = ex2 d)
    (tt : String) (inv : Bool) (minc itv : Nat) :
    ∀ fuel cur off,
      (Income._income_loop ps re ex1 false itv fuel cur off).map
          (fun e => (e.date, e.amount, e.account_id)) =
        (Recurring._projection_loop ps.toRecurringSchedule re ex2 tt inv false
            minc itv fuel cur off).map
          (fun e => (e.date, e.amount, e.account_id)) := by
  intro fuel
  induction fuel with
  | zero => intro cur off; rfl
  | succ fuel ih =>
    intro cur off
    unfold Income._income_loop Recurring._projection_loop
    by_cases hle : cur ≤ re
    · rw [if_pos hle, if_pos hle, List.map_append, List.map_append]
      congr 1
      · rw [← hex cur]
        by_cases hx : ex1 cur = true
        · rw [if_pos hx, if_pos hx]
          rfl
        · rw [if_neg hx, if_neg hx]
          rfl
      · exact ih _ _
    · rw [if_neg hle, if_neg hle]
      rfl

/-- The two engines' monthly loops (month increment 1) emit the same
dates, amounts and accounts. -/
theorem Income._income_loop_map_monthly (ps : Income.PaySchedule) {re : Date}
    (ex1 ex2 : Date → Bool) (hex : ∀ d, ex1 d = ex2 d)
    (tt : String) (inv : Bool) (itv : Nat) :
    ∀ fuel cur off,
      (Income._income_loop ps re ex1 true itv fuel cur off).map
          (fun e => (e.date, e.amount, e.account_id)) =
        (Recurring._projection_loop ps.toRecurringSchedule re ex2 tt inv true
            1 itv fuel cur off).map
          (fun e => (e.date, e.amount, e.account_id)) := by
  intro fuel
  induction fuel with
  | zero => intro cur off; rfl
  | succ fuel ih =>
    intro cur off
    unfold Income._income_loop Recurring._projection_loop
    by_cases hle : cur ≤ re
    · rw [if_pos hle, if_pos hle, List.map_append, List.map_append]
      congr 1
      · rw [← hex cur]
        by_cases hx : ex1 cur = true
        · rw [if_pos hx, if_pos hx]
          rfl
        · rw [if_neg hx, if_neg hx]
          rfl
      · exact ih _ _
    · rw [if_neg hle, if_neg hle]
      rfl

/-- When every supplied income transaction belongs to the schedule's
account, the older engine's exclusion set coincides with the shared
engine's exclusion set for the corresponding income-typed snapshot. -/
theorem Income._excluded_correspond (ps : Income.PaySchedule)
    (txns : List Income.IncomeTransaction)
    (hacct : ∀ t ∈ txns, t.account_id = ps.account_id) :
    ∀ d, Income._collect_existing_dates txns d =
      Recurring._excluded_dates_for_schedule ps.toRecurringSchedule "income"
        (Recurring._index_existing_transactions
          (txns.map Income.IncomeTransaction.toActualTransaction)) d := by
  intro d
  apply bool_eq_of_iff
  have h2 := @Recurring._excluded_iff ps.toRecurringSchedule "income"
    (Or.inl rfl) (txns.map Income.IncomeTransaction.toActualTransaction) d
  have h1 : Income._collect_existing_dates txns d = true ↔
      ∃ t ∈ txns, t.date = d := by
    unfold Income._collect_existing_dates
    simp
  rw [h1, h2]
  constructor
  · rintro ⟨t, ht, hd⟩
    exact ⟨Income.IncomeTransaction.toActualTransaction t,
      List.mem_map_of_mem _ ht, hacct t ht, rfl, hd⟩
  · rintro ⟨t', ht', hacc, hkind, hd⟩
    obtain ⟨t, ht, rfl⟩ := List.mem_map.mp ht'
    exact ⟨t, ht, hd⟩

/-- C8: on snapshots belonging entirely to the schedule's account, the
older `project_income` produces exactly the same dates, amounts and
account ids, in the same order, as the shared recurring engine run on the
corresponding income schedule and income-typed snapshot. -/
theorem C8_income_refinement (ps : Income.PaySchedule) (rs re : Date)
    (txns : List Income.IncomeTransaction)
    {li : List Income.ProjectedIncome}
    (hacct : ∀ t ∈ txns, t.account_id = ps.account_id)
    (hok : Income.project_income ps rs re txns = Except.ok li) :
    ∃ lr, Recurring.project_recurring_schedule ps.toRecurringSchedule rs re
        (txns.map Income.IncomeTransaction.toActualTransaction) =
        Except.ok lr ∧
      lr.map (fun e => (e.date, e.amount, e.account_id)) =
        li.map (fun e => (e.date, e.amount, e.account_id)) := by
  unfold Income.project_income at hok
  by_cases hR : re < rs
  · rw [if_pos hR] at hok
    exact absurd hok (by simp)
  · rw [if_neg hR] at hok
    by_cases hA : ps.amount ≤ 0
    · rw [if_pos hA] at hok
      exact absurd hok (by simp)
    · rw [if_neg hA] at hok
      cases hf : Income._validate_frequency ps.frequency with
      | error e =>
        rw [hf] at hok
        exact absurd hok (by simp)
      | ok nf =>
        rw [hf] at hok
        have hli : li = Income._generate ps rs re
            (Income._collect_existing_dates txns) nf :=
          (Except.ok.inj hok).symm
        obtain ⟨hN, hnf3⟩ := (Income._income_validate_frequency_ok_iff
          ps.frequency nf).mp hf
        have hfR : Recurring._validate_frequency
            ps.toRecurringSchedule.frequency = Except.ok nf := by
          apply (Recurring._validate_frequency_ok_iff _ nf).mpr
          exact ⟨hN, by tauto⟩
        have hkR : Recurring._validate_kind ps.toRecurringSchedule.kind =
            Except.ok "income" := rfl
        have hres := Recurring._project_schedule_ok_intro
          ps.toRecurringSchedule rs re
          (Recurring._index_existing_transactions
            (txns.map Income.IncomeTransaction.toActualTransaction)) true
          (fun h => hR h.2) hA hfR hkR
        refine ⟨Recurring._generate ps.toRecurringSchedule rs re
          (Recurring._excluded_dates_for_schedule ps.toRecurringSchedule
            "income" (Recurring._index_existing_transactions
              (txns.map Income.IncomeTransaction.toActualTransaction)))
          nf "income", ?_, ?_⟩
        · unfold Recurring.project_recurring_schedule
          exact hres
        · rw [hli]
          have hex := Income._excluded_correspond ps txns hacct
          rcases hnf3 with rfl | rfl | rfl
          · rw [Recurring._generate_weekly, Income._income_generate_weekly]
            exact (Income._income_loop_map_interval ps _ _ hex
              (Recurring.KIND_TO_PROJECTION "income").1
              (Recurring.KIND_TO_PROJECTION "income").2 0 WEEKLY_DAYS
              _ _ 0).symm
          · rw [Recurring._generate_biweekly, Income._income_generate_biweekly]
            exact (Income._income_loop_map_interval ps _ _ hex
              (Recurring.KIND_TO_PROJECTION "income").1
              (Recurring.KIND_TO_PROJECTION "income").2 0 BIWEEKLY_DAYS
              _ _ 0).symm
          · rw [Recurring._generate_monthly, Income._income_generate_monthly]
            exact (Income._income_loop_map_monthly ps _ _ hex
              (Recurring.KIND_TO_PROJECTION "income").1
              (Recurring.KIND_TO_PROJECTION "income").2 0
              _ _ _).symm

/-- Witness for C8 at the spec's biweekly pay-schedule scenario. -/
theorem C8_income_refinement_witness :
    ((∀ t ∈ [Income.IncomeTransaction.mk ⟨2024, 1, 19⟩ 1500 10],
        t.account_id = 10) ∧
      Income.project_income (Income.PaySchedule.mk 1500 ⟨2024, 1, 5⟩ 10
          "biweekly") ⟨2024, 1, 1⟩ ⟨2024, 2, 15⟩
        [Income.IncomeTransaction.mk ⟨2024, 1, 19⟩ 1500 10] =
        Except.ok
          [Income.ProjectedIncome.mk ⟨2024, 1, 5⟩ 1500 10 "projected",
          Income.ProjectedIncome.mk ⟨2024, 2, 2⟩ 1500 10 "projected"]) ∧
    (∃ lr, Recurring.project_recurring_schedule
        (Income.PaySchedule.mk 1500 ⟨2024, 1, 5⟩ 10
          "biweekly").toRecurringSchedule ⟨2024, 1, 1⟩ ⟨2024, 2, 15⟩
        ([Income.IncomeTransaction.mk ⟨2024, 1, 19⟩ 1500 10].map
          Income.IncomeTransaction.toActualTransaction) = Except.ok lr ∧
      lr.map (fun e => (e.date, e.amount, e.account_id)) =
        [Income.ProjectedIncome.mk ⟨2024, 1, 5⟩ 1500 10 "projected",
          Income.ProjectedIncome.mk ⟨2024, 2, 2⟩ 1500 10 "projected"].map
          (fun e => (e.date, e.amount, e.account_id))) :=
  ⟨⟨by decide, rfl⟩,
    C8_income_refinement (Income.PaySchedule.mk 1500 ⟨2024, 1, 5⟩ 10
        "biweekly") ⟨2024, 1, 1⟩ ⟨2024, 2, 15⟩
      [Income.IncomeTransaction.mk ⟨2024, 1, 19⟩ 1500 10]
      (by decide) rfl⟩

end Monetra

